import Mathlib

set_option maxRecDepth 8000

/-!
Shallow embedding of the psxmem library (src/src/lib.rs, src/src/errors.rs).

Bytes are modelled as `Nat` (Rust u8 values are below 256; where a bound
matters it appears as an explicit hypothesis). Byte buffers are `List Nat`.
Fallible Rust functions returning `Result<_, MCError>` are modelled as
`Except MCError _`; a Rust panic (slice index out of bounds) is modelled as
the distinguished error value `MCError.Panic`, so that totality and panic
freedom are provable statements.
-/

namespace PSXMem

/-- Error type of the library (errors.rs `MCError`), collapsed to the
constructors the core can actually produce, plus `Panic` for Rust panics
(out of bounds indexing). `Deku` stands for any deku parse error
(in the core this is always insufficient input), `Io` for an io error
(short read), `Utf8` for a text decoding failure. -/
inductive MCError where
  | Deku
  | Io
  | Utf8
  | BadChecksum
  | Panic
deriving DecidableEq, Repr

deriving instance DecidableEq for Except

/-- Constant `BLOCK: usize = 0x2000` from lib.rs. -/
def BLOCK : Nat := 0x2000

/-- Constant `FRAME: usize = 0x80` from lib.rs. -/
def FRAME : Nat := 0x80

/-- Embedding of `calc_checksum` (lib.rs): XOR fold of the first
`FRAME - 1 = 127` bytes of the slice (`d.iter().take(FRAME - 1)`). -/
def calc_checksum (d : List Nat) : Nat :=
  List.foldl (fun c i => c ^^^ i) 0 (d.take (FRAME - 1))

/-- Embedding of `validate_checksum` (lib.rs): compares the computed
checksum with `d[FRAME - 1]`; the Rust indexing panics when the slice is
shorter than 128 bytes, modelled by `MCError.Panic`. -/
def validate_checksum (d : List Nat) : Except MCError Unit :=
  match d.get? (FRAME - 1) with
  | none => .error .Panic
  | some b => if calc_checksum d ≠ b then .error .BadChecksum else .ok ()

/-- Embedding of `update_checksum` (lib.rs): writes the computed checksum
into byte `FRAME - 1` (a panic when the slice is shorter), then re-validates
and returns the updated slice. -/
def update_checksum (d : List Nat) : Except MCError (List Nat) :=
  if FRAME - 1 < d.length then
    let d2 := d.set (FRAME - 1) (calc_checksum d)
    match validate_checksum d2 with
    | .error e => .error e
    | .ok _ => .ok d2
  else .error .Panic

/-- Little endian read of a u16 at offset `off` (deku `endian = little`). -/
def u16_le (d : List Nat) (off : Nat) : Nat :=
  d.getD off 0 + 256 * d.getD (off + 1) 0

/-- Little endian read of a u32 at offset `off` (deku `endian = little`). -/
def u32_le (d : List Nat) (off : Nat) : Nat :=
  d.getD off 0 + 256 * d.getD (off + 1) 0 + 65536 * d.getD (off + 2) 0 +
    16777216 * d.getD (off + 3) 0

/-- Little endian bytes of a u16 value. -/
def u16_bytes (v : Nat) : List Nat := [v % 256, v / 256 % 256]

/-- Little endian bytes of a u32 value. -/
def u32_bytes (v : Nat) : List Nat :=
  [v % 256, v / 256 % 256, v / 65536 % 256, v / 16777216 % 256]

/-- Little endian read of `n` consecutive u16 values starting at `off`. -/
def u16_list (d : List Nat) (off : Nat) : Nat → List Nat
  | 0 => []
  | n + 1 => u16_le d off :: u16_list d (off + 2) n

/-- Struct `Header` (lib.rs): `id: [u8; 2], pad: [u8; 125], checksum: u8`. -/
structure Header where
  id : List Nat
  pad : List Nat
  checksum : Nat
deriving DecidableEq, Repr

/-- Deku field decoding of a `Header` from a 128 byte record. -/
def Header.decode (d : List Nat) : Header :=
  { id := d.take 2, pad := (d.drop 2).take 125, checksum := d.getD 127 0 }

/-- Deku serialization of a `Header` (`to_bytes`). -/
def Header.to_bytes (h : Header) : List Nat := h.id ++ h.pad ++ [h.checksum]

/-- Struct `DirectoryFrame` (lib.rs): `state: u32, filesize: u32,
next_block: u16, filename: [u8; 21], pad: [u8; 96], checksum: u8`. -/
structure DirectoryFrame where
  state : Nat
  filesize : Nat
  next_block : Nat
  filename : List Nat
  pad : List Nat
  checksum : Nat
deriving DecidableEq, Repr

/-- Deku field decoding of a `DirectoryFrame` from a 128 byte record. -/
def DirectoryFrame.decode (d : List Nat) : DirectoryFrame :=
  { state := u32_le d 0
    filesize := u32_le d 4
    next_block := u16_le d 8
    filename := (d.drop 10).take 21
    pad := (d.drop 31).take 96
    checksum := d.getD 127 0 }

/-- Deku serialization of a `DirectoryFrame` (`to_bytes`). -/
def DirectoryFrame.to_bytes (f : DirectoryFrame) : List Nat :=
  u32_bytes f.state ++ u32_bytes f.filesize ++ u16_bytes f.next_block ++
    f.filename ++ f.pad ++ [f.checksum]

/-- Struct `BrokenFrame` (lib.rs): `broken_frame: u32, pad: [u8; 123],
checksum: u8`. -/
structure BrokenFrame where
  broken_frame : Nat
  pad : List Nat
  checksum : Nat
deriving DecidableEq, Repr

/-- Deku field decoding of a `BrokenFrame` from a 128 byte record. -/
def BrokenFrame.decode (d : List Nat) : BrokenFrame :=
  { broken_frame := u32_le d 0
    pad := (d.drop 4).take 123
    checksum := d.getD 127 0 }

/-- Deku serialization of a `BrokenFrame` (`to_bytes`). -/
def BrokenFrame.to_bytes (f : BrokenFrame) : List Nat :=
  u32_bytes f.broken_frame ++ f.pad ++ [f.checksum]

/-- Struct `Frame` (lib.rs): `data: [u8; FRAME]`. -/
structure Frame where
  data : List Nat
deriving DecidableEq, Repr

/-- Deku field decoding of a `Frame` from a 128 byte record. -/
def Frame.decode (d : List Nat) : Frame := { data := d.take FRAME }

/-- Deku serialization of a `Frame` (`to_bytes`). -/
def Frame.to_bytes (f : Frame) : List Nat := f.data

/-- Struct `TitleFrame` (lib.rs): `id: [u8; 2], display: u8, block_num: u8,
title: [u8; 64], reserved: [u8; 28], icon_palette: [u16; 16]`. -/
structure TitleFrame where
  id : List Nat
  display : Nat
  block_num : Nat
  title : List Nat
  reserved : List Nat
  icon_palette : List Nat
deriving DecidableEq, Repr

/-- Deku field decoding of a `TitleFrame` from a 128 byte record. -/
def TitleFrame.decode (d : List Nat) : TitleFrame :=
  { id := d.take 2
    display := d.getD 2 0
    block_num := d.getD 3 0
    title := (d.drop 4).take 64
    reserved := (d.drop 68).take 28
    icon_palette := u16_list d 96 16 }

/-- Deku serialization of a `TitleFrame` (`to_bytes`). -/
def TitleFrame.to_bytes (f : TitleFrame) : List Nat :=
  f.id ++ [f.display, f.block_num] ++ f.title ++ f.reserved ++
    (f.icon_palette.map u16_bytes).flatten

/-- Struct `Block` (lib.rs): `data: [u8; BLOCK]`, an 8192 byte block. -/
structure Block where
  data : List Nat
deriving DecidableEq, Repr

/-- Deku `from_bytes` for a fixed 128 byte record shape: consumes `FRAME`
bytes and returns the remaining input together with the decoded value.
With fewer than 128 bytes available deku reports an incomplete input
error (`MCError.Deku`). -/
def from_bytes128 (decode : List Nat → α) (input : List Nat) :
    Except MCError (List Nat × α) :=
  if FRAME ≤ input.length then .ok (input.drop FRAME, decode (input.take FRAME))
  else .error .Deku

/-- `Header::from_bytes`. -/
def Header.from_bytes (input : List Nat) : Except MCError (List Nat × Header) :=
  from_bytes128 Header.decode input

/-- `DirectoryFrame::from_bytes`. -/
def DirectoryFrame.from_bytes (input : List Nat) :
    Except MCError (List Nat × DirectoryFrame) :=
  from_bytes128 DirectoryFrame.decode input

/-- `BrokenFrame::from_bytes`. -/
def BrokenFrame.from_bytes (input : List Nat) :
    Except MCError (List Nat × BrokenFrame) :=
  from_bytes128 BrokenFrame.decode input

/-- `Frame::from_bytes`. -/
def Frame.from_bytes (input : List Nat) : Except MCError (List Nat × Frame) :=
  from_bytes128 Frame.decode input

/-- `TitleFrame::from_bytes`. -/
def TitleFrame.from_bytes (input : List Nat) :
    Except MCError (List Nat × TitleFrame) :=
  from_bytes128 TitleFrame.decode input

/-- Loop body shared by `DirectoryFrame::load`, `BrokenFrame::load` and
`Frame::load` (lib.rs; the three Rust functions are textually identical up
to the record type). Entered after the first record has been pushed; on
each pass it first compares the accumulated count against `n`, then
validates the checksum of the remaining input and reads the next record. -/
def load_loop (decode : List Nat → α) (acc : List α) (input : List Nat)
    (n : Nat) : Except MCError (List α) :=
  if acc.length = n then .ok acc
  else
    match validate_checksum input with
    | .error e => .error e
    | .ok _ =>
      if _h : FRAME ≤ input.length then
        load_loop decode (acc ++ [decode (input.take FRAME)])
          (input.drop FRAME) n
      else .error .Deku
termination_by input.length
decreasing_by simp only [List.length_drop, FRAME] at *; omega

/-- Shared shape of `DirectoryFrame::load` / `BrokenFrame::load` /
`Frame::load`: validate the checksum of the input, read the first record,
then run the loop. Note that the first record is read before the count is
compared against `n`, so even `n = 0` reads (and validates) records. -/
def load_records (decode : List Nat → α) (input : List Nat) (n : Nat) :
    Except MCError (List α) :=
  match validate_checksum input with
  | .error e => .error e
  | .ok _ =>
    if FRAME ≤ input.length then
      load_loop decode [decode (input.take FRAME)] (input.drop FRAME) n
    else .error .Deku

/-- `DirectoryFrame::load` (lib.rs). -/
def DirectoryFrame.load (input : List Nat) (n : Nat) :
    Except MCError (List DirectoryFrame) :=
  load_records DirectoryFrame.decode input n

/-- `BrokenFrame::load` (lib.rs). -/
def BrokenFrame.load (input : List Nat) (n : Nat) :
    Except MCError (List BrokenFrame) :=
  load_records BrokenFrame.decode input n

/-- `Frame::load` (lib.rs). -/
def Frame.load (input : List Nat) (n : Nat) : Except MCError (List Frame) :=
  load_records Frame.decode input n

/-- Loop body of `DataBlock::read_n_frames` (lib.rs): like `load_loop` but
with no checksum validation. -/
def read_n_loop (acc : List Frame) (input : List Nat) (n : Nat) :
    Except MCError (List Frame) :=
  if acc.length = n then .ok acc
  else
    if _h : FRAME ≤ input.length then
      read_n_loop (acc ++ [Frame.decode (input.take FRAME)])
        (input.drop FRAME) n
    else .error .Deku
termination_by input.length
decreasing_by simp only [List.length_drop, FRAME] at *; omega

/-- Struct `DataBlock` (lib.rs). -/
structure DataBlock where
  title_frame : TitleFrame
  icon_frames : List Frame
  data_frames : List Frame
deriving DecidableEq, Repr

/-- `DataBlock::read_n_frames` (lib.rs): reads the first frame before the
count is compared against `num_frames`, so `num_frames = 0` keeps reading
frames until the input is exhausted and then fails with a deku error. -/
def DataBlock.read_n_frames (input : List Nat) (num_frames : Nat) :
    Except MCError (List Frame) :=
  if FRAME ≤ input.length then
    read_n_loop [Frame.decode (input.take FRAME)] (input.drop FRAME) num_frames
  else .error .Deku

/-- `DataBlock::load_data_block` (lib.rs): reads the title frame, then
`display & 0x03` icon frames, then every remaining full frame of the block
as data frames. Rust slicing `&b.data[FRAME..]` is modelled by `List.drop`
(for the actual `[u8; BLOCK]` block both agree). -/
def DataBlock.load_data_block (b : Block) : Except MCError DataBlock :=
  match TitleFrame.from_bytes b.data with
  | .error e => .error e
  | .ok (_, title_frame) =>
    let num_frames := title_frame.display &&& 0x03
    match DataBlock.read_n_frames (b.data.drop FRAME) num_frames with
    | .error e => .error e
    | .ok icon_frames =>
      let next := FRAME + FRAME * icon_frames.length
      let num_frames2 := (b.data.drop next).length / FRAME
      match DataBlock.read_n_frames (b.data.drop next) num_frames2 with
      | .error e => .error e
      | .ok data_frames =>
        .ok { title_frame := title_frame
              icon_frames := icon_frames
              data_frames := data_frames }

/-- `DataBlock::load_all_data_blocks` (lib.rs): loads each block in order,
propagating the first failure. -/
def DataBlock.load_all_data_blocks : List Block → Except MCError (List DataBlock)
  | [] => .ok []
  | b :: rest =>
    match DataBlock.load_data_block b with
    | .error e => .error e
    | .ok db =>
      match DataBlock.load_all_data_blocks rest with
      | .error e => .error e
      | .ok l => .ok (db :: l)

/-- `DataBlock::write` (lib.rs): emits the title frame bytes, then each
icon frame, then each data frame, with no checksum recomputation. -/
def DataBlock.write (db : DataBlock) : List Nat :=
  db.title_frame.to_bytes ++ (db.icon_frames.map Frame.to_bytes).flatten ++
    (db.data_frames.map Frame.to_bytes).flatten

/-- Struct `InfoBlock` (lib.rs). -/
structure InfoBlock where
  header : Header
  dir_frames : List DirectoryFrame
  broken_frames : List BrokenFrame
  unused_frames : List Frame
  wr_test_frame : Header
deriving DecidableEq, Repr

/-- `InfoBlock::open` (lib.rs): validates and decodes the card header, the
15 directory frames, the 20 broken frames, the 27 unused frames and the
trailing write test header, at cumulatively computed offsets. Rust slicing
`&b.data[offset..]` is modelled by `List.drop`. -/
def InfoBlock.open_block (b : Block) : Except MCError InfoBlock :=
  match validate_checksum b.data with
  | .error e => .error e
  | .ok _ =>
    match Header.from_bytes b.data with
    | .error e => .error e
    | .ok (_, header) =>
      match DirectoryFrame.load (b.data.drop FRAME) 15 with
      | .error e => .error e
      | .ok dir_frames =>
        let offset := dir_frames.length * FRAME + FRAME
        match BrokenFrame.load (b.data.drop offset) 20 with
        | .error e => .error e
        | .ok broken_frames =>
          let offset2 := offset + broken_frames.length * FRAME
          match Frame.load (b.data.drop offset2) 27 with
          | .error e => .error e
          | .ok unused_frames =>
            let offset3 := offset2 + unused_frames.length * FRAME
            match validate_checksum (b.data.drop offset3) with
            | .error e => .error e
            | .ok _ =>
              match Header.from_bytes (b.data.drop offset3) with
              | .error e => .error e
              | .ok (_, wr_test_frame) =>
                .ok { header := header
                      dir_frames := dir_frames
                      broken_frames := broken_frames
                      unused_frames := unused_frames
                      wr_test_frame := wr_test_frame }

/-- Concatenation of a list of serialized records, each stamped with
`update_checksum` before emission; the first failure aborts. This is the
emission order of the five sequential output loops of `InfoBlock::write`. -/
def stamp_concat : List (List Nat) → Except MCError (List Nat)
  | [] => .ok []
  | r :: rest =>
    match update_checksum r with
    | .error e => .error e
    | .ok r2 =>
      match stamp_concat rest with
      | .error e => .error e
      | .ok tail => .ok (r2 ++ tail)

/-- The serialized records of an `InfoBlock`, in the emission order of
`InfoBlock::write`: header, directory frames, broken frames, unused
frames, write test header. -/
def InfoBlock.record_bytes (ib : InfoBlock) : List (List Nat) :=
  [ib.header.to_bytes] ++ ib.dir_frames.map DirectoryFrame.to_bytes ++
    ib.broken_frames.map BrokenFrame.to_bytes ++
    ib.unused_frames.map Frame.to_bytes ++ [ib.wr_test_frame.to_bytes]

/-- `InfoBlock::write` (lib.rs): serializes the header, the directory
frames, the broken frames, the unused frames and the write test header in
order, running `update_checksum` on every record before emission. -/
def InfoBlock.write (ib : InfoBlock) : Except MCError (List Nat) :=
  stamp_concat ib.record_bytes

/-- Struct `MemCard` (lib.rs). -/
structure MemCard where
  info : InfoBlock
  data : List DataBlock
deriving DecidableEq, Repr

/-- Loop of `MemCard::open` reading the 15 data blocks: each pass reads
exactly `BLOCK` bytes (`read_exact`, failing with an io error on a short
read), pushes the block, and stops once 15 blocks have been read. -/
def read_blocks_loop (acc : List Block) (input : List Nat) :
    Except MCError (List Block) :=
  if _h : BLOCK ≤ input.length then
    let acc2 := acc ++ [Block.mk (input.take BLOCK)]
    if acc2.length = 15 then .ok acc2
    else read_blocks_loop acc2 (input.drop BLOCK)
  else .error .Io
termination_by input.length
decreasing_by simp only [List.length_drop, BLOCK] at *; omega

/-- `MemCard::open` (lib.rs), with the file contents given as a byte list:
reads one 8192 byte block for the info block, then 15 more for the data
blocks, and parses them. Bytes beyond the 16 blocks are never read. -/
def MemCard.open_bytes (input : List Nat) : Except MCError MemCard :=
  if BLOCK ≤ input.length then
    match InfoBlock.open_block (Block.mk (input.take BLOCK)) with
    | .error e => .error e
    | .ok info =>
      match read_blocks_loop [] (input.drop BLOCK) with
      | .error e => .error e
      | .ok blocks =>
        match DataBlock.load_all_data_blocks blocks with
        | .error e => .error e
        | .ok data => .ok { info := info, data := data }
  else .error .Io

/-- `MemCard::write` (lib.rs), with the output file modelled as the byte
list produced: the info block (restamped) followed by each data block
written verbatim. -/
def MemCard.write_bytes (m : MemCard) : Except MCError (List Nat) :=
  match m.info.write with
  | .error e => .error e
  | .ok ibytes => .ok (ibytes ++ (m.data.map DataBlock.write).flatten)

/-- One pass of the `TitleFrame::decode_title` loop body up to the cursor
increment: inspects the lead byte `title[p]` and possibly pushes one
character. Accesses of `title[p + 1]` inside the `0x81` and `0x82` arms
panic (modelled by `none`) when out of bounds. The lead byte `0x00` is
handled by the caller; any lead byte other than `0x81` and `0x82` emits
nothing. -/
def decode_emit (title : List Nat) (p lead : Nat) (s : String) :
    Option String :=
  if lead = 0x81 then
    match title.get? (p + 1) with
    | none => none
    | some trail => some (if trail = 0x40 then s.push ' ' else s)
  else if lead = 0x82 then
    match title.get? (p + 1) with
    | none => none
    | some trail =>
      some
        (if (0x4f ≤ trail ∧ trail ≤ 0x58) ∨ (0x60 ≤ trail ∧ trail ≤ 0x79) then
          s.push (Char.ofNat (trail - 0x1f))
        else if 0x81 ≤ trail ∧ trail ≤ 0x9a then
          s.push (Char.ofNat (trail - 0x20))
        else s)
  else some s

/-- Loop of `TitleFrame::decode_title` (lib.rs): reads the lead byte at
cursor `p` (a panic, modelled by `none`, when out of bounds), stops on a
`0x00` lead byte, otherwise emits per `decode_emit`, advances the cursor by
exactly 2 and stops when the cursor reaches the end of the title field. -/
def decode_loop (title : List Nat) (p : Nat) (s : String) : Option String :=
  match title.get? p with
  | none => none
  | some lead =>
    if lead = 0x00 then some s
    else
      match decode_emit title p lead s with
      | none => none
      | some s2 =>
        if _h : p + 2 ≥ title.length then some s2
        else decode_loop title (p + 2) s2
termination_by title.length - p
decreasing_by omega

/-- `TitleFrame::decode_title` (lib.rs): decodes the 64 byte title field
from Shift-JIS into an ASCII string. The Rust function returns
`Result<String, MCError>` but its body has no failure path and always
returns `Ok`; the `Option` layer models only the (unreachable for a
64 byte title) panics of the indexing. -/
def TitleFrame.decode_title (tf : TitleFrame) : Option String :=
  decode_loop tf.title 0 ""

/-- The four RGBA bytes pushed by `DataBlock::translate_bmp_to_rgba` for
one palette entry: the three 5 bit channels each multiplied by 8, then a
constant 255 alpha. -/
def push_pixel (pixel : Nat) : List Nat :=
  [(pixel &&& 0x001f) * 8, ((pixel &&& (0x001f <<< 5)) >>> 5) * 8,
    ((pixel &&& (0x001f <<< 10)) >>> 10) * 8, 255]

/-- Loop of `DataBlock::translate_bmp_to_rgba` (lib.rs) over the frame
bytes: for each byte, the low nibble then the high nibble index into the
16 entry palette (`(v >> (4 * s)) & 0x0f` for `s = 0, 1`); an out of range
palette index panics (modelled by `none`). -/
def translate_loop (palette : List Nat) : List Nat → Option (List Nat)
  | [] => some []
  | v :: rest =>
    match palette.get? ((v >>> 0) &&& 0x0f), palette.get? ((v >>> 4) &&& 0x0f) with
    | some p0, some p1 =>
      match translate_loop palette rest with
      | some tail => some (push_pixel p0 ++ push_pixel p1 ++ tail)
      | none => none
    | _, _ => none

/-- `DataBlock::translate_bmp_to_rgba` (lib.rs): translates one icon frame
through the icon palette of the title frame into an RGBA byte buffer. The
Rust signature is fallible but the body only returns `Ok`; the `Option`
layer models only the palette indexing panics (unreachable for the 16
entry palette of a parsed title frame). -/
def DataBlock.translate_bmp_to_rgba (db : DataBlock) (f : Frame) :
    Option (List Nat) :=
  translate_loop db.title_frame.icon_palette f.data

/-! Well-formedness predicates. They record exactly the invariants that the
Rust types enforce statically (array lengths and integer widths) and that
the Lean model, using unbounded `Nat` and `List Nat`, must carry as
hypotheses. -/

/-- Rust type invariant of `Header`. -/
def Header.WF (h : Header) : Prop := h.id.length = 2 ∧ h.pad.length = 125

/-- The stored checksum byte of a `Header` matches its serialized record. -/
def Header.consistent (h : Header) : Prop :=
  h.checksum = calc_checksum h.to_bytes

/-- Rust type invariant of `DirectoryFrame`. -/
def DirectoryFrame.WF (f : DirectoryFrame) : Prop :=
  f.state < 4294967296 ∧ f.filesize < 4294967296 ∧ f.next_block < 65536 ∧
    f.filename.length = 21 ∧ f.pad.length = 96

/-- The stored checksum byte of a `DirectoryFrame` matches its record. -/
def DirectoryFrame.consistent (f : DirectoryFrame) : Prop :=
  f.checksum = calc_checksum f.to_bytes

/-- Rust type invariant of `BrokenFrame`. -/
def BrokenFrame.WF (f : BrokenFrame) : Prop :=
  f.broken_frame < 4294967296 ∧ f.pad.length = 123

/-- The stored checksum byte of a `BrokenFrame` matches its record. -/
def BrokenFrame.consistent (f : BrokenFrame) : Prop :=
  f.checksum = calc_checksum f.to_bytes

/-- Rust type invariant of `Frame`. -/
def Frame.WF (f : Frame) : Prop := f.data.length = FRAME

/-- The last byte of a `Frame` matches the XOR of its first 127 bytes. -/
def Frame.consistent (f : Frame) : Prop :=
  f.data.getD 127 0 = calc_checksum f.data

/-- Rust type invariant of `TitleFrame`. -/
def TitleFrame.WF (f : TitleFrame) : Prop :=
  f.id.length = 2 ∧ f.display < 256 ∧ f.block_num < 256 ∧
    f.title.length = 64 ∧ f.reserved.length = 28 ∧
    f.icon_palette.length = 16 ∧ ∀ p ∈ f.icon_palette, p < 65536

/-- Structural invariant of an `InfoBlock` as produced by `InfoBlock::open`:
the directory, broken and unused frame vectors have their fixed counts and
every record satisfies its Rust type invariant. -/
def InfoBlock.WF (ib : InfoBlock) : Prop :=
  ib.header.WF ∧
    ib.dir_frames.length = 15 ∧ (∀ f ∈ ib.dir_frames, f.WF) ∧
    ib.broken_frames.length = 20 ∧ (∀ f ∈ ib.broken_frames, f.WF) ∧
    ib.unused_frames.length = 27 ∧ (∀ f ∈ ib.unused_frames, f.WF) ∧
    ib.wr_test_frame.WF

/-- All stored checksum bytes of an `InfoBlock` are consistent. -/
def InfoBlock.consistent (ib : InfoBlock) : Prop :=
  ib.header.consistent ∧ (∀ f ∈ ib.dir_frames, f.consistent) ∧
    (∀ f ∈ ib.broken_frames, f.consistent) ∧
    (∀ f ∈ ib.unused_frames, f.consistent) ∧ ib.wr_test_frame.consistent

/-- Structural invariant of a `DataBlock` as produced by
`DataBlock::load_data_block`: the icon frame count equals
`display & 0x03`, is at least 1, and the data frames fill the rest of the
8192 byte block. -/
def DataBlock.WF (db : DataBlock) : Prop :=
  db.title_frame.WF ∧ 1 ≤ db.title_frame.display &&& 0x03 ∧
    db.icon_frames.length = db.title_frame.display &&& 0x03 ∧
    (∀ f ∈ db.icon_frames, f.WF) ∧
    db.data_frames.length = 63 - (db.title_frame.display &&& 0x03) ∧
    ∀ f ∈ db.data_frames, f.WF

/-- Structural invariant of a `MemCard`: a well formed info block and
exactly 15 well formed data blocks. -/
def MemCard.WF (m : MemCard) : Prop :=
  m.info.WF ∧ m.data.length = 15 ∧ ∀ db ∈ m.data, db.WF

/-- All stored checksum fields of a `MemCard` are consistent (only the
info block records carry stored checksum fields; data block frames are
raw bytes and title frames carry no checksum). -/
def MemCard.consistent (m : MemCard) : Prop := m.info.consistent

instance (h : Header) : Decidable h.WF := by
  unfold Header.WF
  infer_instance

instance (h : Header) : Decidable h.consistent := by
  unfold Header.consistent
  infer_instance

instance (f : DirectoryFrame) : Decidable f.WF := by
  unfold DirectoryFrame.WF
  infer_instance

instance (f : DirectoryFrame) : Decidable f.consistent := by
  unfold DirectoryFrame.consistent
  infer_instance

instance (f : BrokenFrame) : Decidable f.WF := by
  unfold BrokenFrame.WF
  infer_instance

instance (f : BrokenFrame) : Decidable f.consistent := by
  unfold BrokenFrame.consistent
  infer_instance

instance (f : Frame) : Decidable f.WF := by
  unfold Frame.WF
  infer_instance

instance (f : Frame) : Decidable f.consistent := by
  unfold Frame.consistent
  infer_instance

instance (f : TitleFrame) : Decidable f.WF := by
  unfold TitleFrame.WF
  infer_instance

instance (ib : InfoBlock) : Decidable ib.WF := by
  unfold InfoBlock.WF
  infer_instance

instance (ib : InfoBlock) : Decidable ib.consistent := by
  unfold InfoBlock.consistent
  infer_instance

instance (db : DataBlock) : Decidable db.WF := by
  unfold DataBlock.WF
  infer_instance

instance (m : MemCard) : Decidable m.WF := by
  unfold MemCard.WF
  infer_instance

instance (m : MemCard) : Decidable m.consistent := by
  unfold MemCard.consistent
  infer_instance

/-! Generic list helpers. -/

/-- Length of the concatenation of equal length chunks. -/
theorem flatten_length_const {L : List (List Nat)} {c : Nat}
    (h : ∀ r ∈ L, r.length = c) : L.flatten.length = L.length * c := by
  induction L with
  | nil => simp
  | cons r rest ih =>
    simp only [List.flatten_cons, List.length_append, List.length_cons,
      h r (by simp)]
    rw [ih (fun r hr => h r (by simp [hr]))]
    ring

/-- Dropping `c * j` bytes from a concatenation of `c` byte chunks drops
the first `j` chunks. -/
theorem flatten_drop_const {L : List (List Nat)} {c : Nat}
    (h : ∀ r ∈ L, r.length = c) (j : Nat) :
    L.flatten.drop (c * j) = (L.drop j).flatten := by
  induction j generalizing L with
  | zero => simp
  | succ k ih =>
    cases L with
    | nil => simp
    | cons r rest =>
      have hr : r.length = c := h r (by simp)
      simp only [List.flatten_cons, List.drop_succ_cons]
      rw [Nat.mul_succ, Nat.add_comm, ← List.drop_drop,
        List.drop_left' hr, ih (fun r hr => h r (by simp [hr]))]

/-- Setting an index to the value it already holds is the identity. -/
theorem set_get?_self {l : List Nat} {n : Nat} {a : Nat}
    (h : l.get? n = some a) : l.set n a = l := by
  induction l generalizing n with
  | nil => simp at h
  | cons x xs ih =>
    cases n with
    | zero => simp_all [List.get?]
    | succ k =>
      simp only [List.get?] at h
      simp [List.set, ih h]

/-- Taking `n` elements ignores a `set` at position `n`. -/
theorem take_set_self {l : List Nat} {n : Nat} {a : Nat} :
    (l.set n a).take n = l.take n := by
  apply List.ext_getElem?
  intro i
  rw [List.getElem?_take, List.getElem?_take]
  split
  · next hi => rw [List.getElem?_set_ne (by omega)]
  · rfl

/-! Record serialization lengths. -/

theorem Header_to_bytes_length {h : Header} (hWF : h.WF) :
    h.to_bytes.length = FRAME := by
  obtain ⟨h1, h2⟩ := hWF
  simp [Header.to_bytes, h1, h2, FRAME]

theorem DirectoryFrame_to_bytes_length {f : DirectoryFrame} (hWF : f.WF) :
    f.to_bytes.length = FRAME := by
  obtain ⟨-, -, -, h4, h5⟩ := hWF
  simp [DirectoryFrame.to_bytes, u32_bytes, u16_bytes, h4, h5, FRAME]

theorem BrokenFrame_to_bytes_length {f : BrokenFrame} (hWF : f.WF) :
    f.to_bytes.length = FRAME := by
  obtain ⟨-, h2⟩ := hWF
  simp [BrokenFrame.to_bytes, u32_bytes, h2, FRAME]

theorem Frame_to_bytes_length {f : Frame} (hWF : f.WF) :
    f.to_bytes.length = FRAME := hWF

theorem TitleFrame_to_bytes_length {f : TitleFrame} (hWF : f.WF) :
    f.to_bytes.length = FRAME := by
  obtain ⟨h1, -, -, h4, h5, h6, -⟩ := hWF
  have hp : (f.icon_palette.map u16_bytes).flatten.length = 16 * 2 := by
    rw [flatten_length_const (c := 2) (by simp [u16_bytes])]
    simp [h6]
  simp [TitleFrame.to_bytes, h1, h4, h5, hp, FRAME]

/-! Decode and encode round trips for the record codecs. -/

theorem getD_append_len {l1 l2 : List Nat} {off i : Nat}
    (hl : l1.length = off) : (l1 ++ l2).getD (off + i) 0 = l2.getD i 0 := by
  rw [List.getD_append_right _ _ _ _ (by omega)]
  congr 1
  omega

theorem u16_le_append {l1 l2 : List Nat} {off : Nat} (hl : l1.length = off) :
    u16_le (l1 ++ l2) off = u16_le l2 0 := by
  unfold u16_le
  rw [show off = off + 0 by ring, getD_append_len hl,
    show off + 0 + 1 = off + 1 by ring, getD_append_len hl]

theorem u32_le_append {l1 l2 : List Nat} {off : Nat} (hl : l1.length = off) :
    u32_le (l1 ++ l2) off = u32_le l2 0 := by
  unfold u32_le
  rw [show off = off + 0 by ring, getD_append_len hl,
    show off + 0 + 1 = off + 1 by ring, getD_append_len hl,
    show off + 0 + 2 = off + 2 by ring, getD_append_len hl,
    show off + 0 + 3 = off + 3 by ring, getD_append_len hl]

theorem u16_le_bytes {v : Nat} (hv : v < 65536) (R : List Nat) :
    u16_le (u16_bytes v ++ R) 0 = v := by
  simp only [u16_le, u16_bytes, List.cons_append, List.nil_append,
    List.getD_cons_zero, List.getD_cons_succ]
  omega

theorem u32_le_bytes {v : Nat} (hv : v < 4294967296) (R : List Nat) :
    u32_le (u32_bytes v ++ R) 0 = v := by
  simp only [u32_le, u32_bytes, List.cons_append, List.nil_append,
    List.getD_cons_zero, List.getD_cons_succ]
  omega

theorem u16_list_append {pre : List Nat} {l : List Nat} {off : Nat}
    (hpre : pre.length = off) (hl : ∀ p ∈ l, p < 65536) :
    u16_list (pre ++ (l.map u16_bytes).flatten) off l.length = l := by
  induction l generalizing pre off with
  | nil => rfl
  | cons v rest ih =>
    simp only [List.length_cons, List.map_cons, List.flatten_cons, u16_list]
    rw [u16_le_append hpre, u16_le_bytes (hl v (by simp))]
    congr 1
    rw [show pre ++ (u16_bytes v ++ (rest.map u16_bytes).flatten) =
          (pre ++ u16_bytes v) ++ (rest.map u16_bytes).flatten by
            simp [List.append_assoc]]
    exact ih (by simp [hpre, u16_bytes]) (fun p hp => hl p (by simp [hp]))

theorem Header_decode_to_bytes {h : Header} (hWF : h.WF) :
    Header.decode h.to_bytes = h := by
  obtain ⟨h1, h2⟩ := hWF
  obtain ⟨id, pad, ck⟩ := h
  simp only [Header.WF] at h1 h2
  unfold Header.decode Header.to_bytes
  simp only [Header.mk.injEq]
  refine ⟨?_, ?_, ?_⟩
  · rw [List.append_assoc, List.take_left' h1]
  · rw [List.append_assoc, List.drop_left' h1, List.take_left' h2]
  · rw [List.append_assoc, show (127 : Nat) = 2 + 125 by norm_num,
      getD_append_len h1, show (125 : Nat) = 125 + 0 by norm_num,
      getD_append_len h2]
    rfl

theorem DirectoryFrame_decode_to_bytes {f : DirectoryFrame} (hWF : f.WF) :
    DirectoryFrame.decode f.to_bytes = f := by
  obtain ⟨h1, h2, h3, h4, h5⟩ := hWF
  obtain ⟨st, fs, nb, fn, pd, ck⟩ := f
  simp only at h1 h2 h3 h4 h5
  unfold DirectoryFrame.decode DirectoryFrame.to_bytes
  simp only [DirectoryFrame.mk.injEq, List.append_assoc]
  refine ⟨?_, ?_, ?_, ?_, ?_, ?_⟩
  · exact u32_le_bytes h1 _
  · rw [@u32_le_append _ _ 4 (by simp [u32_bytes]),
      u32_le_bytes h2 _]
  · rw [show u32_bytes st ++ (u32_bytes fs ++ (u16_bytes nb ++ (fn ++
        (pd ++ [ck])))) = (u32_bytes st ++ u32_bytes fs) ++ (u16_bytes nb ++
        (fn ++ (pd ++ [ck]))) by simp [List.append_assoc],
      @u16_le_append _ _ 8 (by simp [u32_bytes]),
      u16_le_bytes h3 _]
  · rw [show u32_bytes st ++ (u32_bytes fs ++ (u16_bytes nb ++ (fn ++
        (pd ++ [ck])))) = (u32_bytes st ++ (u32_bytes fs ++ u16_bytes nb)) ++
        (fn ++ (pd ++ [ck])) by simp [List.append_assoc],
      List.drop_left' (by simp [u32_bytes, u16_bytes]), List.take_left' h4]
  · rw [show u32_bytes st ++ (u32_bytes fs ++ (u16_bytes nb ++ (fn ++
        (pd ++ [ck])))) = (u32_bytes st ++ (u32_bytes fs ++ (u16_bytes nb ++
        fn))) ++ (pd ++ [ck]) by simp [List.append_assoc],
      List.drop_left' (by simp [u32_bytes, u16_bytes, h4]),
      List.take_left' h5]
  · rw [show u32_bytes st ++ (u32_bytes fs ++ (u16_bytes nb ++ (fn ++
        (pd ++ [ck])))) = (u32_bytes st ++ (u32_bytes fs ++ (u16_bytes nb ++
        (fn ++ pd)))) ++ [ck] by simp [List.append_assoc],
      show (127 : Nat) = (u32_bytes st ++ (u32_bytes fs ++ (u16_bytes nb ++
        (fn ++ pd)))).length + 0 by simp [u32_bytes, u16_bytes, h4, h5],
      getD_append_len rfl]
    rfl

theorem BrokenFrame_decode_to_bytes {f : BrokenFrame} (hWF : f.WF) :
    BrokenFrame.decode f.to_bytes = f := by
  obtain ⟨h1, h2⟩ := hWF
  obtain ⟨bf, pd, ck⟩ := f
  simp only at h1 h2
  unfold BrokenFrame.decode BrokenFrame.to_bytes
  simp only [BrokenFrame.mk.injEq, List.append_assoc]
  refine ⟨?_, ?_, ?_⟩
  · exact u32_le_bytes h1 _
  · rw [@List.drop_left' _ (u32_bytes bf) _ _ (by simp [u32_bytes]),
      List.take_left' h2]
  · rw [show u32_bytes bf ++ (pd ++ [ck]) = (u32_bytes bf ++ pd) ++ [ck] by
        simp [List.append_assoc],
      show (127 : Nat) = (u32_bytes bf ++ pd).length + 0 by
        simp [u32_bytes, h2],
      getD_append_len rfl]
    rfl

theorem Frame_decode_to_bytes {f : Frame} (hWF : f.WF) :
    Frame.decode f.to_bytes = f := by
  obtain ⟨d⟩ := f
  unfold Frame.decode Frame.to_bytes
  simp only [Frame.mk.injEq]
  have hd : d.length = FRAME := hWF
  rw [← hd, List.take_length]

theorem TitleFrame_decode_to_bytes {f : TitleFrame} (hWF : f.WF) :
    TitleFrame.decode f.to_bytes = f := by
  obtain ⟨h1, h2, h3, h4, h5, h6, h7⟩ := hWF
  obtain ⟨id, dp, bn, ti, rs, pal⟩ := f
  simp only at h1 h2 h3 h4 h5 h6 h7
  unfold TitleFrame.decode TitleFrame.to_bytes
  simp only [TitleFrame.mk.injEq, List.append_assoc]
  refine ⟨?_, ?_, ?_, ?_, ?_, ?_⟩
  · rw [List.take_left' h1]
  · rw [show (2 : Nat) = 2 + 0 by norm_num, getD_append_len h1]
    rfl
  · rw [show (3 : Nat) = 2 + 1 by norm_num, getD_append_len h1]
    rfl
  · rw [show id ++ ([dp, bn] ++ (ti ++ (rs ++ (pal.map u16_bytes).flatten)))
        = (id ++ [dp, bn]) ++ (ti ++ (rs ++ (pal.map u16_bytes).flatten)) by
          simp [List.append_assoc],
      List.drop_left' (by simp [h1]), List.take_left' h4]
  · rw [show id ++ ([dp, bn] ++ (ti ++ (rs ++ (pal.map u16_bytes).flatten)))
        = (id ++ ([dp, bn] ++ ti)) ++ (rs ++ (pal.map u16_bytes).flatten) by
          simp [List.append_assoc],
      List.drop_left' (by simp [h1, h4]), List.take_left' h5]
  · rw [show id ++ ([dp, bn] ++ (ti ++ (rs ++ (pal.map u16_bytes).flatten)))
        = (id ++ ([dp, bn] ++ (ti ++ rs))) ++ (pal.map u16_bytes).flatten by
          simp [List.append_assoc],
      show (16 : Nat) = pal.length from h6.symm]
    exact u16_list_append (by simp [h1, h4, h5]) h7

/-! Checksum engine lemmas. -/

theorem calc_checksum_take (d : List Nat) :
    calc_checksum (d.take FRAME) = calc_checksum d := by
  unfold calc_checksum
  rw [List.take_take]
  norm_num [FRAME]

theorem calc_checksum_set127 (d : List Nat) (a : Nat) :
    calc_checksum (d.set 127 a) = calc_checksum d := by
  unfold calc_checksum
  rw [show FRAME - 1 = 127 by norm_num [FRAME], take_set_self]

theorem validate_take {input : List Nat} (h : FRAME ≤ input.length) :
    validate_checksum input = validate_checksum (input.take FRAME) := by
  unfold validate_checksum
  rw [List.get?_take (show FRAME - 1 < FRAME by norm_num [FRAME]),
    calc_checksum_take]

theorem validate_short {d : List Nat} (h : d.length < FRAME) :
    validate_checksum d = .error .Panic := by
  unfold validate_checksum
  rw [List.get?_eq_none.mpr (by omega)]

theorem validate_ok_of_consistent {r : List Nat} (hlen : FRAME ≤ r.length)
    (hc : r.getD 127 0 = calc_checksum r) : validate_checksum r = .ok () := by
  have h127 : 127 < r.length := by
    simp only [FRAME] at hlen
    omega
  have hg : r.get? (FRAME - 1) = some (calc_checksum r) := by
    rw [show FRAME - 1 = 127 by norm_num [FRAME], List.get?_eq_getElem?,
      List.getElem?_eq_getElem h127, ← List.getD_eq_getElem _ 0 h127, hc]
  unfold validate_checksum
  rw [hg]
  simp

theorem validate_cases {d : List Nat} (h : FRAME ≤ d.length) :
    validate_checksum d = .ok () ∨ validate_checksum d = .error .BadChecksum := by
  unfold validate_checksum
  cases hg : d.get? (FRAME - 1) with
  | none =>
    rw [List.get?_eq_none] at hg
    simp only [FRAME] at h hg
    omega
  | some b =>
    by_cases hb : calc_checksum d ≠ b <;> simp [hb]

theorem validate_ok_iff {d : List Nat} (h : FRAME ≤ d.length) :
    validate_checksum d = .ok () ↔ calc_checksum d = d.getD 127 0 := by
  have h127 : 127 < d.length := by
    simp only [FRAME] at h
    omega
  have hg : d.get? (FRAME - 1) = some (d.getD 127 0) := by
    rw [show FRAME - 1 = 127 by norm_num [FRAME], List.get?_eq_getElem?,
      List.getElem?_eq_getElem h127, ← List.getD_eq_getElem _ 0 h127]
  unfold validate_checksum
  rw [hg]
  by_cases hb : calc_checksum d ≠ d.getD 127 0 <;> simp [hb]

theorem update_checksum_ok {d : List Nat} (h : FRAME ≤ d.length) :
    update_checksum d = .ok (d.set (FRAME - 1) (calc_checksum d)) := by
  have h127 : 127 < d.length := by
    simp only [FRAME] at h
    omega
  have hval : validate_checksum (d.set (FRAME - 1) (calc_checksum d)) =
      .ok () := by
    apply validate_ok_of_consistent (by simpa using h)
    rw [show FRAME - 1 = 127 by norm_num [FRAME], calc_checksum_set127,
      List.getD_eq_getElem _ 0 (show 127 < (d.set 127 (calc_checksum d)).length
        by simpa using h127)]
    simp
  unfold update_checksum
  rw [if_pos (by simp only [FRAME] at h ⊢; omega)]
  simp only [hval]

theorem update_checksum_self {d : List Nat} (hlen : FRAME ≤ d.length)
    (hc : d.getD 127 0 = calc_checksum d) : update_checksum d = .ok d := by
  rw [update_checksum_ok hlen]
  congr 1
  rw [show FRAME - 1 = 127 by norm_num [FRAME]]
  apply set_get?_self
  have h127 : 127 < d.length := by
    simp only [FRAME] at hlen
    omega
  rw [List.get?_eq_getElem?, List.getElem?_eq_getElem h127,
    ← List.getD_eq_getElem _ 0 h127, hc]

theorem update_checksum_short {d : List Nat} (h : d.length < FRAME) :
    update_checksum d = .error .Panic := by
  unfold update_checksum
  rw [if_neg (by simp only [FRAME] at h ⊢; omega)]

/-! Serialization loop lemmas. -/

theorem stamp_concat_stamped {recs : List (List Nat)}
    (h : ∀ r ∈ recs, FRAME ≤ r.length) :
    stamp_concat recs =
      .ok ((recs.map (fun r => r.set (FRAME - 1) (calc_checksum r))).flatten) := by
  induction recs with
  | nil => rfl
  | cons r rest ih =>
    unfold stamp_concat
    rw [update_checksum_ok (h r (by simp)),
      ih (fun r hr => h r (by simp [hr]))]
    simp

theorem stamp_concat_consistent {recs : List (List Nat)}
    (h : ∀ r ∈ recs, FRAME ≤ r.length ∧ r.getD 127 0 = calc_checksum r) :
    stamp_concat recs = .ok recs.flatten := by
  induction recs with
  | nil => rfl
  | cons r rest ih =>
    unfold stamp_concat
    rw [update_checksum_self (h r (by simp)).1 (h r (by simp)).2,
      ih (fun r hr => h r (by simp [hr]))]
    simp

/-! Loader loop lemmas. -/

/-- A 128 byte record whose stored checksum validates. -/
def record_ok (r : List Nat) : Prop :=
  r.length = FRAME ∧ validate_checksum r = .ok ()

theorem load_loop_concat {α : Type} (dec : List Nat → α)
    (recs : List (List Nat)) (acc : List α) (suffix : List Nat) (n : Nat)
    (h : ∀ r ∈ recs, record_ok r) (hn : acc.length + recs.length = n) :
    load_loop dec acc (recs.flatten ++ suffix) n =
      .ok (acc ++ recs.map dec) := by
  induction recs generalizing acc with
  | nil =>
    rw [load_loop]
    simp only [List.length_nil, Nat.add_zero] at hn
    rw [if_pos hn]
    simp
  | cons r rest ih =>
    obtain ⟨hr1, hr2⟩ := h r (by simp)
    simp only [List.flatten_cons, List.append_assoc]
    have hlen : FRAME ≤ (r ++ (rest.flatten ++ suffix)).length := by
      simp [hr1]
    have hval : validate_checksum (r ++ (rest.flatten ++ suffix)) = .ok () := by
      rw [validate_take hlen, List.take_left' hr1]
      exact hr2
    rw [load_loop, if_neg (by simp only [List.length_cons] at hn; omega),
      hval]
    simp only
    rw [dif_pos hlen, List.take_left' hr1, List.drop_left' hr1]
    have := ih (acc ++ [dec r]) (fun r hr => h r (by simp [hr]))
      (by simp only [List.length_append, List.length_cons,
        List.length_singleton, List.length_nil] at hn ⊢; omega)
    rw [this]
    simp

theorem load_records_concat {α : Type} (dec : List Nat → α)
    (recs : List (List Nat)) (suffix : List Nat) (n : Nat)
    (h : ∀ r ∈ recs, record_ok r) (hn : recs.length = n) (hne : recs ≠ []) :
    load_records dec (recs.flatten ++ suffix) n = .ok (recs.map dec) := by
  cases recs with
  | nil => exact absurd rfl hne
  | cons r rest =>
    obtain ⟨hr1, hr2⟩ := h r (by simp)
    simp only [List.flatten_cons, List.append_assoc]
    have hlen : FRAME ≤ (r ++ (rest.flatten ++ suffix)).length := by
      simp [hr1]
    have hval : validate_checksum (r ++ (rest.flatten ++ suffix)) = .ok () := by
      rw [validate_take hlen, List.take_left' hr1]
      exact hr2
    unfold load_records
    rw [hval]
    simp only
    rw [if_pos hlen, List.take_left' hr1, List.drop_left' hr1]
    have := load_loop_concat dec rest [dec r] suffix n
      (fun r hr => h r (by simp [hr]))
      (by simp only [List.length_cons] at hn
          simp only [List.length_singleton, List.length_nil]
          omega)
    rw [this]
    simp

theorem load_loop_bad {α : Type} (dec : List Nat → α)
    (goods : List (List Nat)) (acc : List α) (rest : List Nat) (n : Nat)
    (h : ∀ r ∈ goods, record_ok r) (hlt : acc.length + goods.length < n)
    (hbad : validate_checksum rest = .error .BadChecksum) :
    load_loop dec acc (goods.flatten ++ rest) n = .error .BadChecksum := by
  induction goods generalizing acc with
  | nil =>
    rw [load_loop, if_neg (by simp at hlt; omega)]
    simp only [List.flatten_nil, List.nil_append]
    rw [hbad]
  | cons r grest ih =>
    obtain ⟨hr1, hr2⟩ := h r (by simp)
    simp only [List.flatten_cons, List.append_assoc]
    have hlen : FRAME ≤ (r ++ (grest.flatten ++ rest)).length := by
      simp [hr1]
    have hval : validate_checksum (r ++ (grest.flatten ++ rest)) = .ok () := by
      rw [validate_take hlen, List.take_left' hr1]
      exact hr2
    rw [load_loop, if_neg (by simp only [List.length_cons] at hlt; omega),
      hval]
    simp only
    rw [dif_pos hlen, List.take_left' hr1, List.drop_left' hr1]
    exact ih (acc ++ [dec r]) (fun r hr => h r (by simp [hr]))
      (by simp only [List.length_append, List.length_cons,
        List.length_singleton, List.length_nil] at hlt ⊢; omega)

theorem load_records_bad {α : Type} (dec : List Nat → α)
    (goods : List (List Nat)) (rest : List Nat) (n : Nat)
    (h : ∀ r ∈ goods, record_ok r) (hlt : goods.length < n)
    (hbad : validate_checksum rest = .error .BadChecksum) :
    load_records dec (goods.flatten ++ rest) n = .error .BadChecksum := by
  cases goods with
  | nil =>
    unfold load_records
    simp only [List.flatten_nil, List.nil_append]
    rw [hbad]
  | cons r grest =>
    obtain ⟨hr1, hr2⟩ := h r (by simp)
    simp only [List.flatten_cons, List.append_assoc]
    have hlen : FRAME ≤ (r ++ (grest.flatten ++ rest)).length := by
      simp [hr1]
    have hval : validate_checksum (r ++ (grest.flatten ++ rest)) = .ok () := by
      rw [validate_take hlen, List.take_left' hr1]
      exact hr2
    unfold load_records
    rw [hval]
    simp only
    rw [if_pos hlen, List.take_left' hr1, List.drop_left' hr1]
    exact load_loop_bad dec grest [dec r] rest n
      (fun r hr => h r (by simp [hr]))
      (by simp only [List.length_cons] at hlt
          simp only [List.length_singleton, List.length_nil]
          omega) hbad

theorem read_n_loop_concat (frames : List Frame) (acc : List Frame)
    (suffix : List Nat) (n : Nat) (h : ∀ f ∈ frames, f.WF)
    (hn : acc.length + frames.length = n) :
    read_n_loop acc ((frames.map Frame.to_bytes).flatten ++ suffix) n =
      .ok (acc ++ frames) := by
  induction frames generalizing acc with
  | nil =>
    rw [read_n_loop]
    simp only [List.length_nil, Nat.add_zero] at hn
    rw [if_pos hn]
    simp
  | cons f rest ih =>
    have hf : f.data.length = FRAME := h f (by simp)
    simp only [List.map_cons, List.flatten_cons, List.append_assoc,
      Frame.to_bytes]
    have hlen : FRAME ≤
        (f.data ++ ((rest.map Frame.to_bytes).flatten ++ suffix)).length := by
      simp [hf]
    rw [read_n_loop, if_neg (by simp only [List.length_cons] at hn; omega),
      dif_pos hlen, List.take_left' hf, List.drop_left' hf]
    have hdec : Frame.decode f.data = f := by
      unfold Frame.decode
      rw [← hf, List.take_length]
    rw [hdec]
    have := ih (acc ++ [f]) (fun g hg => h g (by simp [hg]))
      (by simp only [List.length_append, List.length_cons,
        List.length_singleton, List.length_nil] at hn ⊢; omega)
    rw [this]
    simp

theorem read_n_frames_concat (frames : List Frame) (suffix : List Nat)
    (n : Nat) (h : ∀ f ∈ frames, f.WF) (hn : frames.length = n)
    (hne : frames ≠ []) :
    DataBlock.read_n_frames ((frames.map Frame.to_bytes).flatten ++ suffix) n =
      .ok frames := by
  cases frames with
  | nil => exact absurd rfl hne
  | cons f rest =>
    have hf : f.data.length = FRAME := h f (by simp)
    simp only [List.map_cons, List.flatten_cons, List.append_assoc,
      Frame.to_bytes]
    have hlen : FRAME ≤
        (f.data ++ ((rest.map Frame.to_bytes).flatten ++ suffix)).length := by
      simp [hf]
    unfold DataBlock.read_n_frames
    rw [if_pos hlen, List.take_left' hf, List.drop_left' hf]
    have hdec : Frame.decode f.data = f := by
      unfold Frame.decode
      rw [← hf, List.take_length]
    rw [hdec]
    have := read_n_loop_concat rest [f] suffix n
      (fun g hg => h g (by simp [hg]))
      (by simp only [List.length_cons] at hn
          simp only [List.length_singleton, List.length_nil]
          omega)
    rw [this]
    simp

theorem read_n_loop_zero : ∀ (fuel : Nat) (acc : List Frame)
    (input : List Nat), input.length ≤ fuel → acc.length ≠ 0 →
    read_n_loop acc input 0 = .error .Deku := by
  intro fuel
  induction fuel with
  | zero =>
    intro acc input hfuel hacc
    rw [read_n_loop, if_neg hacc,
      dif_neg (by simp only [FRAME]; omega)]
  | succ k ih =>
    intro acc input hfuel hacc
    rw [read_n_loop, if_neg hacc]
    by_cases hl : FRAME ≤ input.length
    · rw [dif_pos hl]
      exact ih _ _ (by simp only [List.length_drop, FRAME] at hl ⊢ ; omega)
        (by simp)
    · rw [dif_neg hl]

theorem read_n_loop_len : ∀ (fuel : Nat) (acc : List Frame)
    (input : List Nat) (n : Nat) (l : List Frame), input.length ≤ fuel →
    read_n_loop acc input n = .ok l → l.length = n := by
  intro fuel
  induction fuel with
  | zero =>
    intro acc input n l hfuel hok
    rw [read_n_loop] at hok
    by_cases hacc : acc.length = n
    · rw [if_pos hacc] at hok
      cases hok
      exact hacc
    · rw [if_neg hacc, dif_neg (by simp only [FRAME]; omega)] at hok
      cases hok
  | succ k ih =>
    intro acc input n l hfuel hok
    rw [read_n_loop] at hok
    by_cases hacc : acc.length = n
    · rw [if_pos hacc] at hok
      cases hok
      exact hacc
    · rw [if_neg hacc] at hok
      by_cases hl : FRAME ≤ input.length
      · rw [dif_pos hl] at hok
        exact ih _ _ _ _
          (by simp only [List.length_drop, FRAME] at hl ⊢ ; omega) hok
      · rw [dif_neg hl] at hok
        cases hok

/-! Chunk decomposition of a buffer into 128 byte records. -/

/-- The k-th 128 byte chunk of a buffer. -/
def chunk (l : List Nat) (k : Nat) : List Nat := (l.drop (FRAME * k)).take FRAME

theorem drop_chunk_step (l : List Nat) (a : Nat)
    (h : FRAME * (a + 1) ≤ l.length) :
    l.drop (FRAME * a) = chunk l a ++ l.drop (FRAME * (a + 1)) := by
  unfold chunk
  conv_lhs => rw [← List.take_append_drop FRAME (l.drop (FRAME * a))]
  rw [List.drop_drop, show FRAME * a + FRAME = FRAME * (a + 1) by ring]

theorem drop_eq_chunks (l : List Nat) (a cnt : Nat)
    (h : FRAME * (a + cnt) ≤ l.length) :
    l.drop (FRAME * a) =
      ((List.range cnt).map (fun i => chunk l (a + i))).flatten ++
        l.drop (FRAME * (a + cnt)) := by
  induction cnt generalizing a with
  | zero => simp
  | succ k ih =>
    have h1 : FRAME * (a + 1) ≤ l.length :=
      le_trans (Nat.mul_le_mul (le_refl FRAME) (by omega)) h
    rw [List.range_succ_eq_map]
    simp only [List.map_cons, List.flatten_cons, List.map_map,
      List.append_assoc, Nat.add_zero]
    rw [drop_chunk_step l a h1]
    congr 1
    have hmap : (List.range k).map ((fun i => chunk l (a + i)) ∘ Nat.succ) =
        (List.range k).map (fun i => chunk l (a + 1 + i)) := by
      apply List.map_congr_left
      intro i hi
      simp only [Function.comp]
      congr 1
      omega
    rw [hmap]
    have h2 : (a + 1) + k = a + (k + 1) := by omega
    rw [← h2]
    exact ih (a + 1) (by rw [h2]; exact h)

theorem chunk_length {l : List Nat} {k : Nat}
    (h : FRAME * (k + 1) ≤ l.length) : (chunk l k).length = FRAME := by
  rw [Nat.mul_succ] at h
  unfold chunk
  simp only [List.length_take, List.length_drop]
  omega

theorem chunk_validate {l : List Nat} {k : Nat}
    (h : FRAME * (k + 1) ≤ l.length) :
    validate_checksum (l.drop (FRAME * k)) = validate_checksum (chunk l k) := by
  rw [Nat.mul_succ] at h
  exact validate_take (by simp only [List.length_drop]; omega)

theorem chunk_record_ok {l : List Nat} {k : Nat}
    (h : FRAME * (k + 1) ≤ l.length)
    (hv : validate_checksum (l.drop (FRAME * k)) = .ok ()) :
    record_ok (chunk l k) := by
  refine ⟨chunk_length h, ?_⟩
  rw [← chunk_validate h]
  exact hv

/-! Checksum byte position of the serialized records. -/

theorem Header_to_bytes_getD {h : Header} (hWF : h.WF) :
    h.to_bytes.getD 127 0 = h.checksum := by
  obtain ⟨h1, h2⟩ := hWF
  unfold Header.to_bytes
  rw [List.append_assoc, show (127 : Nat) = 2 + 125 by norm_num,
    getD_append_len h1, show (125 : Nat) = 125 + 0 by norm_num,
    getD_append_len h2]
  rfl

theorem DirectoryFrame_to_bytes_getD {f : DirectoryFrame} (hWF : f.WF) :
    f.to_bytes.getD 127 0 = f.checksum := by
  obtain ⟨-, -, -, h4, h5⟩ := hWF
  unfold DirectoryFrame.to_bytes
  rw [show u32_bytes f.state ++ u32_bytes f.filesize ++
      u16_bytes f.next_block ++ f.filename ++ f.pad ++ [f.checksum] =
      (u32_bytes f.state ++ u32_bytes f.filesize ++ u16_bytes f.next_block ++
        f.filename ++ f.pad) ++ [f.checksum] by simp [List.append_assoc],
    show (127 : Nat) = (u32_bytes f.state ++ u32_bytes f.filesize ++
      u16_bytes f.next_block ++ f.filename ++ f.pad).length + 0 by
        simp [u32_bytes, u16_bytes, h4, h5],
    getD_append_len rfl]
  rfl

theorem BrokenFrame_to_bytes_getD {f : BrokenFrame} (hWF : f.WF) :
    f.to_bytes.getD 127 0 = f.checksum := by
  obtain ⟨-, h2⟩ := hWF
  unfold BrokenFrame.to_bytes
  rw [show u32_bytes f.broken_frame ++ f.pad ++ [f.checksum] =
      (u32_bytes f.broken_frame ++ f.pad) ++ [f.checksum] by
        simp [List.append_assoc],
    show (127 : Nat) = (u32_bytes f.broken_frame ++ f.pad).length + 0 by
      simp [u32_bytes, h2],
    getD_append_len rfl]
  rfl

/-! Facts about the serialized records of an info block. -/

theorem InfoBlock.record_bytes_length {ib : InfoBlock} (hWF : ib.WF) :
    ib.record_bytes.length = 64 := by
  obtain ⟨-, h2, -, h4, -, h6, -, -⟩ := hWF
  simp [InfoBlock.record_bytes, h2, h4, h6]

theorem mem_record_bytes {ib : InfoBlock} {r : List Nat}
    (hr : r ∈ ib.record_bytes) :
    r = ib.header.to_bytes ∨ (∃ f ∈ ib.dir_frames, r = f.to_bytes) ∨
      (∃ f ∈ ib.broken_frames, r = f.to_bytes) ∨
      (∃ f ∈ ib.unused_frames, r = f.to_bytes) ∨
      r = ib.wr_test_frame.to_bytes := by
  simp only [InfoBlock.record_bytes, List.append_assoc,
    List.mem_append, List.mem_singleton, List.mem_map] at hr
  rcases hr with (hr | ⟨f, hf, rfl⟩ | ⟨f, hf, rfl⟩ | ⟨f, hf, rfl⟩ | hr)
  · exact Or.inl hr
  · exact Or.inr (Or.inl ⟨f, hf, rfl⟩)
  · exact Or.inr (Or.inr (Or.inl ⟨f, hf, rfl⟩))
  · exact Or.inr (Or.inr (Or.inr (Or.inl ⟨f, hf, rfl⟩)))
  · exact Or.inr (Or.inr (Or.inr (Or.inr hr)))

theorem InfoBlock.record_bytes_WF {ib : InfoBlock} (hWF : ib.WF) :
    ∀ r ∈ ib.record_bytes, r.length = FRAME := by
  obtain ⟨h1, -, h3, -, h5, -, h7, h8⟩ := hWF
  intro r hr
  rcases mem_record_bytes hr with
    (rfl | ⟨f, hf, rfl⟩ | ⟨f, hf, rfl⟩ | ⟨f, hf, rfl⟩ | rfl)
  · exact Header_to_bytes_length h1
  · exact DirectoryFrame_to_bytes_length (h3 f hf)
  · exact BrokenFrame_to_bytes_length (h5 f hf)
  · exact Frame_to_bytes_length (h7 f hf)
  · exact Header_to_bytes_length h8

theorem InfoBlock.record_bytes_consistent {ib : InfoBlock} (hWF : ib.WF)
    (hc : ib.consistent) :
    ∀ r ∈ ib.record_bytes, r.getD 127 0 = calc_checksum r := by
  obtain ⟨h1, -, h3, -, h5, -, h7, h8⟩ := hWF
  obtain ⟨c1, c2, c3, c4, c5⟩ := hc
  intro r hr
  rcases mem_record_bytes hr with
    (rfl | ⟨f, hf, rfl⟩ | ⟨f, hf, rfl⟩ | ⟨f, hf, rfl⟩ | rfl)
  · rw [Header_to_bytes_getD h1]
    exact c1
  · rw [DirectoryFrame_to_bytes_getD (h3 f hf)]
    exact c2 f hf
  · rw [BrokenFrame_to_bytes_getD (h5 f hf)]
    exact c3 f hf
  · exact c4 f hf
  · rw [Header_to_bytes_getD h8]
    exact c5

/-! InfoBlock serialization and reparse. -/

theorem InfoBlock.write_ok {ib : InfoBlock} (hWF : ib.WF)
    (hc : ib.consistent) : ib.write = .ok ib.record_bytes.flatten := by
  unfold InfoBlock.write
  apply stamp_concat_consistent
  intro r hr
  exact ⟨le_of_eq (InfoBlock.record_bytes_WF hWF r hr).symm,
    InfoBlock.record_bytes_consistent hWF hc r hr⟩

theorem InfoBlock.flatten_length {ib : InfoBlock} (hWF : ib.WF) :
    ib.record_bytes.flatten.length = BLOCK := by
  rw [flatten_length_const (InfoBlock.record_bytes_WF hWF),
    InfoBlock.record_bytes_length hWF]
  norm_num [FRAME, BLOCK]

theorem InfoBlock.open_record_bytes {ib : InfoBlock} (hWF : ib.WF)
    (hc : ib.consistent) :
    InfoBlock.open_block (Block.mk ib.record_bytes.flatten) = .ok ib := by
  obtain ⟨h1, h2, h3, h4, h5, h6, h7, h8⟩ := hWF
  obtain ⟨c1, c2, c3, c4, c5⟩ := hc
  set bytes := ib.record_bytes.flatten with hbytes
  set DB := ib.dir_frames.map DirectoryFrame.to_bytes with hDB
  set BB := ib.broken_frames.map BrokenFrame.to_bytes with hBB
  set UB := ib.unused_frames.map Frame.to_bytes with hUB
  have hFRAME : FRAME = 128 := rfl
  have hhblen : ib.header.to_bytes.length = 128 := Header_to_bytes_length h1
  have hhbF : ib.header.to_bytes.length = FRAME := Header_to_bytes_length h1
  have hwtlen : ib.wr_test_frame.to_bytes.length = 128 :=
    Header_to_bytes_length h8
  have hwtF : ib.wr_test_frame.to_bytes.length = FRAME :=
    Header_to_bytes_length h8
  have hDBok : ∀ r ∈ DB, record_ok r := by
    intro r hr
    rw [hDB] at hr
    obtain ⟨f, hf, rfl⟩ := List.mem_map.mp hr
    exact ⟨DirectoryFrame_to_bytes_length (h3 f hf),
      validate_ok_of_consistent
        (le_of_eq (DirectoryFrame_to_bytes_length (h3 f hf)).symm)
        ((DirectoryFrame_to_bytes_getD (h3 f hf)).trans (c2 f hf))⟩
  have hBBok : ∀ r ∈ BB, record_ok r := by
    intro r hr
    rw [hBB] at hr
    obtain ⟨f, hf, rfl⟩ := List.mem_map.mp hr
    exact ⟨BrokenFrame_to_bytes_length (h5 f hf),
      validate_ok_of_consistent
        (le_of_eq (BrokenFrame_to_bytes_length (h5 f hf)).symm)
        ((BrokenFrame_to_bytes_getD (h5 f hf)).trans (c3 f hf))⟩
  have hUBok : ∀ r ∈ UB, record_ok r := by
    intro r hr
    rw [hUB] at hr
    obtain ⟨f, hf, rfl⟩ := List.mem_map.mp hr
    exact ⟨Frame_to_bytes_length (h7 f hf),
      validate_ok_of_consistent
        (le_of_eq (Frame_to_bytes_length (h7 f hf)).symm) (c4 f hf)⟩
  have hDBflen : DB.flatten.length = 1920 := by
    rw [flatten_length_const (c := FRAME) (fun r hr => (hDBok r hr).1)]
    simp [hDB, h2, FRAME]
  have hBBflen : BB.flatten.length = 2560 := by
    rw [flatten_length_const (c := FRAME) (fun r hr => (hBBok r hr).1)]
    simp [hBB, h4, FRAME]
  have hUBflen : UB.flatten.length = 3456 := by
    rw [flatten_length_const (c := FRAME) (fun r hr => (hUBok r hr).1)]
    simp [hUB, h6, FRAME]
  have hflat : bytes = ib.header.to_bytes ++ (DB.flatten ++ (BB.flatten ++
      (UB.flatten ++ ib.wr_test_frame.to_bytes))) := by
    rw [hbytes, hDB, hBB, hUB]
    simp [InfoBlock.record_bytes, List.flatten_append, List.append_assoc]
  have hd128 : bytes.drop 128 = DB.flatten ++ (BB.flatten ++
      (UB.flatten ++ ib.wr_test_frame.to_bytes)) := by
    rw [hflat, List.drop_left' hhblen]
  have hd2048 : bytes.drop 2048 = BB.flatten ++
      (UB.flatten ++ ib.wr_test_frame.to_bytes) := by
    rw [hflat, show ib.header.to_bytes ++ (DB.flatten ++ (BB.flatten ++
        (UB.flatten ++ ib.wr_test_frame.to_bytes))) =
        (ib.header.to_bytes ++ DB.flatten) ++ (BB.flatten ++
          (UB.flatten ++ ib.wr_test_frame.to_bytes)) by
            simp [List.append_assoc],
      List.drop_left' (by simp [hhblen, hDBflen])]
  have hd4608 : bytes.drop 4608 = UB.flatten ++ ib.wr_test_frame.to_bytes := by
    rw [hflat, show ib.header.to_bytes ++ (DB.flatten ++ (BB.flatten ++
        (UB.flatten ++ ib.wr_test_frame.to_bytes))) =
        (ib.header.to_bytes ++ (DB.flatten ++ BB.flatten)) ++
          (UB.flatten ++ ib.wr_test_frame.to_bytes) by
            simp [List.append_assoc],
      List.drop_left' (by simp [hhblen, hDBflen, hBBflen])]
  have hd8064 : bytes.drop 8064 = ib.wr_test_frame.to_bytes := by
    rw [hflat, show ib.header.to_bytes ++ (DB.flatten ++ (BB.flatten ++
        (UB.flatten ++ ib.wr_test_frame.to_bytes))) =
        (ib.header.to_bytes ++ (DB.flatten ++ (BB.flatten ++ UB.flatten))) ++
          ib.wr_test_frame.to_bytes by simp [List.append_assoc],
      List.drop_left' (by simp [hhblen, hDBflen, hBBflen, hUBflen])]
  have hblen : bytes.length = 8192 := by
    rw [hflat]
    simp [hhblen, hDBflen, hBBflen, hUBflen, hwtlen]
  have s1 : validate_checksum bytes = .ok () := by
    rw [validate_take (by rw [hblen]; norm_num [FRAME]), hflat,
      List.take_left' hhbF]
    exact validate_ok_of_consistent (le_of_eq hhbF.symm)
      ((Header_to_bytes_getD h1).trans c1)
  have s1b : Header.from_bytes bytes = .ok (bytes.drop 128, ib.header) := by
    unfold Header.from_bytes from_bytes128
    rw [if_pos (by rw [hblen]; norm_num [FRAME])]
    rw [show bytes.take FRAME = ib.header.to_bytes by
      rw [hflat, List.take_left' hhbF],
      Header_decode_to_bytes h1]
    rfl
  have s2 : DirectoryFrame.load (bytes.drop 128) 15 = .ok ib.dir_frames := by
    rw [hd128]
    unfold DirectoryFrame.load
    rw [load_records_concat DirectoryFrame.decode DB _ 15 hDBok
      (by simp [hDB, h2])
      (by rw [hDB]
          intro hnil
          have := congrArg List.length hnil
          simp [h2] at this)]
    congr 1
    rw [hDB, List.map_map]
    exact (List.map_congr_left
      (fun f hf => DirectoryFrame_decode_to_bytes (h3 f hf))).trans
        (List.map_id _)
  have s3 : BrokenFrame.load (bytes.drop 2048) 20 = .ok ib.broken_frames := by
    rw [hd2048]
    unfold BrokenFrame.load
    rw [load_records_concat BrokenFrame.decode BB _ 20 hBBok
      (by simp [hBB, h4])
      (by rw [hBB]
          intro hnil
          have := congrArg List.length hnil
          simp [h4] at this)]
    congr 1
    rw [hBB, List.map_map]
    exact (List.map_congr_left
      (fun f hf => BrokenFrame_decode_to_bytes (h5 f hf))).trans
        (List.map_id _)
  have s4 : Frame.load (bytes.drop 4608) 27 = .ok ib.unused_frames := by
    rw [hd4608]
    unfold Frame.load
    rw [load_records_concat Frame.decode UB _ 27 hUBok
      (by simp [hUB, h6])
      (by rw [hUB]
          intro hnil
          have := congrArg List.length hnil
          simp [h6] at this)]
    congr 1
    rw [hUB, List.map_map]
    exact (List.map_congr_left
      (fun f hf => Frame_decode_to_bytes (h7 f hf))).trans (List.map_id _)
  have s5 : validate_checksum (bytes.drop 8064) = .ok () := by
    rw [hd8064]
    exact validate_ok_of_consistent (le_of_eq hwtlen.symm)
      ((Header_to_bytes_getD h8).trans c5)
  have s6 : Header.from_bytes (bytes.drop 8064) =
      .ok ((bytes.drop 8064).drop FRAME, ib.wr_test_frame) := by
    unfold Header.from_bytes from_bytes128
    rw [if_pos (by rw [hd8064, hwtlen]; norm_num [FRAME])]
    rw [show (bytes.drop 8064).take FRAME = ib.wr_test_frame.to_bytes by
      rw [hd8064, ← hwtF, List.take_length],
      Header_decode_to_bytes h8]
  simp only [InfoBlock.open_block, s1, s1b, s2, s3, s4, s5, s6, h2, h4, h6,
    FRAME]

/-! DataBlock serialization and reparse. -/

theorem DataBlock.icon_bytes_length {db : DataBlock}
    (h : ∀ f ∈ db.icon_frames, f.WF) :
    (db.icon_frames.map Frame.to_bytes).flatten.length =
      db.icon_frames.length * FRAME := by
  rw [flatten_length_const (c := FRAME) ?_]
  · simp
  · intro r hr
    obtain ⟨f, hf, rfl⟩ := List.mem_map.mp hr
    exact h f hf

theorem DataBlock.data_bytes_length {db : DataBlock}
    (h : ∀ f ∈ db.data_frames, f.WF) :
    (db.data_frames.map Frame.to_bytes).flatten.length =
      db.data_frames.length * FRAME := by
  rw [flatten_length_const (c := FRAME) ?_]
  · simp
  · intro r hr
    obtain ⟨f, hf, rfl⟩ := List.mem_map.mp hr
    exact h f hf

theorem DataBlock.write_length {db : DataBlock} (hWF : db.WF) :
    db.write.length = BLOCK := by
  obtain ⟨h1, h2, h3, h4, h5, h6⟩ := hWF
  have hic : db.title_frame.display &&& 0x03 ≤ 3 := Nat.and_le_right
  unfold DataBlock.write
  simp only [List.length_append, TitleFrame_to_bytes_length h1,
    DataBlock.icon_bytes_length h4, DataBlock.data_bytes_length h6, h3, h5,
    FRAME, BLOCK]
  omega

theorem DataBlock.load_write {db : DataBlock} (hWF : db.WF) :
    DataBlock.load_data_block (Block.mk db.write) = .ok db := by
  obtain ⟨h1, h2, h3, h4, h5, h6⟩ := hWF
  have hic : db.title_frame.display &&& 0x03 ≤ 3 := Nat.and_le_right
  have htl : db.title_frame.to_bytes.length = FRAME :=
    TitleFrame_to_bytes_length h1
  set IB := db.icon_frames.map Frame.to_bytes with hIB
  set SB := db.data_frames.map Frame.to_bytes with hSB
  have hIlen : IB.flatten.length = db.icon_frames.length * FRAME :=
    DataBlock.icon_bytes_length h4
  have hSlen : SB.flatten.length = db.data_frames.length * FRAME :=
    DataBlock.data_bytes_length h6
  have hw : db.write = db.title_frame.to_bytes ++ (IB.flatten ++ SB.flatten) := by
    unfold DataBlock.write
    rw [List.append_assoc]
  have hwlen : db.write.length = 8192 :=
    DataBlock.write_length ⟨h1, h2, h3, h4, h5, h6⟩
  have s1 : TitleFrame.from_bytes db.write =
      .ok (db.write.drop FRAME, db.title_frame) := by
    unfold TitleFrame.from_bytes from_bytes128
    rw [if_pos (by rw [hwlen]; norm_num [FRAME])]
    rw [show db.write.take FRAME = db.title_frame.to_bytes by
      rw [hw, List.take_left' htl], TitleFrame_decode_to_bytes h1]
  have hdrop1 : db.write.drop 128 = IB.flatten ++ SB.flatten := by
    rw [hw,
      List.drop_left' (show db.title_frame.to_bytes.length = 128 from htl)]
  have s2 : DataBlock.read_n_frames (db.write.drop 128)
      (db.title_frame.display &&& 3) = .ok db.icon_frames := by
    rw [hdrop1]
    exact read_n_frames_concat db.icon_frames SB.flatten _ h4 h3
      (by intro hnil
          rw [hnil] at h3
          simp at h3
          omega)
  have hdrop2 : db.write.drop (128 + 128 * db.icon_frames.length) =
      SB.flatten := by
    rw [hw, show db.title_frame.to_bytes ++ (IB.flatten ++ SB.flatten) =
      (db.title_frame.to_bytes ++ IB.flatten) ++ SB.flatten by
        simp [List.append_assoc],
      List.drop_left' (by
        simp only [List.length_append, htl, hIlen, FRAME]
        ring)]
  have s3 : DataBlock.read_n_frames
      (db.write.drop (128 + 128 * db.icon_frames.length))
      ((db.write.drop (128 + 128 * db.icon_frames.length)).length / 128) =
      .ok db.data_frames := by
    rw [hdrop2, hSlen,
      show db.data_frames.length * FRAME / 128 = db.data_frames.length by
        simp only [FRAME]
        omega]
    have := read_n_frames_concat db.data_frames [] db.data_frames.length h6
      rfl
      (by intro hnil
          rw [hnil] at h5
          simp only [List.length_nil] at h5
          omega)
    rw [List.append_nil] at this
    exact this
  simp only [DataBlock.load_data_block, s1, s2, s3, FRAME]

theorem read_n_frames_zero {input : List Nat} :
    DataBlock.read_n_frames input 0 = .error .Deku := by
  unfold DataBlock.read_n_frames
  by_cases h : FRAME ≤ input.length
  · rw [if_pos h]
    exact read_n_loop_zero (input.drop FRAME).length _ _ (le_refl _) (by simp)
  · rw [if_neg h]

theorem load_data_block_display0 {b : Block} (hlen : b.data.length = BLOCK)
    (hdisp : b.data.getD 2 0 &&& 0x03 = 0) :
    DataBlock.load_data_block b = .error .Deku := by
  have h128 : FRAME ≤ b.data.length := by
    rw [hlen]
    norm_num [FRAME, BLOCK]
  have hdisp2 : (TitleFrame.decode (b.data.take 128)).display =
      b.data.getD 2 0 := by
    unfold TitleFrame.decode
    simp only
    rw [List.getD_eq_getD_get?, List.get?_take (by norm_num),
      ← List.getD_eq_getD_get?]
  have s1 : TitleFrame.from_bytes b.data =
      .ok (b.data.drop 128, TitleFrame.decode (b.data.take 128)) := by
    unfold TitleFrame.from_bytes from_bytes128
    rw [if_pos h128]
    rfl
  have s2 : DataBlock.read_n_frames (b.data.drop 128)
      ((TitleFrame.decode (b.data.take 128)).display &&& 3) =
      .error .Deku := by
    rw [hdisp2, hdisp]
    exact read_n_frames_zero
  simp only [DataBlock.load_data_block, s1, s2, FRAME]

/-! MemCard serialization and reparse. -/

theorem read_blocks_loop_concat (bs : List (List Nat)) (acc : List Block)
    (suffix : List Nat) (hlen : ∀ b ∈ bs, b.length = BLOCK)
    (hn : acc.length + bs.length = 15) (hne : bs ≠ []) :
    read_blocks_loop acc (bs.flatten ++ suffix) =
      .ok (acc ++ bs.map Block.mk) := by
  induction bs generalizing acc with
  | nil => exact absurd rfl hne
  | cons b rest ih =>
    have hb : b.length = BLOCK := hlen b (by simp)
    have hbig : BLOCK ≤ (b ++ (rest.flatten ++ suffix)).length := by
      simp [hb]
    simp only [List.flatten_cons, List.append_assoc]
    rw [read_blocks_loop, dif_pos hbig, List.take_left' hb]
    have hn2 : acc.length + rest.length + 1 = 15 := by
      simp only [List.length_cons] at hn
      omega
    cases rest with
    | nil =>
      have hstop : (acc ++ [Block.mk b]).length = 15 := by
        simp only [List.length_append, List.length_singleton,
          List.length_nil] at hn2 ⊢
        omega
      rw [if_pos hstop]
      simp
    | cons b2 rest2 =>
      have hgo : ¬(acc ++ [Block.mk b]).length = 15 := by
        simp only [List.length_append, List.length_singleton,
          List.length_cons, List.length_nil] at hn2 ⊢
        omega
      rw [if_neg hgo, List.drop_left' hb]
      have := ih (acc ++ [Block.mk b])
        (fun x hx => hlen x (by simp [hx]))
        (by simp only [List.length_append, List.length_singleton,
          List.length_cons, List.length_nil] at hn2 ⊢
            omega)
        (by simp)
      rw [this]
      simp

theorem load_all_write (dbs : List DataBlock) (h : ∀ db ∈ dbs, db.WF) :
    DataBlock.load_all_data_blocks
      (dbs.map (Block.mk ∘ DataBlock.write)) = .ok dbs := by
  induction dbs with
  | nil => rfl
  | cons d rest ih =>
    simp only [List.map_cons, Function.comp]
    unfold DataBlock.load_all_data_blocks
    rw [DataBlock.load_write (h d (by simp)),
      ih (fun x hx => h x (by simp [hx]))]

theorem MemCard.write_bytes_ok {m : MemCard} (hWF : m.info.WF)
    (hc : m.info.consistent) :
    m.write_bytes = .ok (m.info.record_bytes.flatten ++
      (m.data.map DataBlock.write).flatten) := by
  unfold MemCard.write_bytes
  rw [InfoBlock.write_ok hWF hc]

theorem MemCard.open_write {m : MemCard} (hWF : m.WF) (hc : m.consistent) :
    MemCard.open_bytes (m.info.record_bytes.flatten ++
      (m.data.map DataBlock.write).flatten) = .ok m := by
  obtain ⟨hinfo, hlen15, hdbs⟩ := hWF
  set ibytes := m.info.record_bytes.flatten with hib
  set dbytes := m.data.map DataBlock.write with hdb
  have hi : ibytes.length = BLOCK := InfoBlock.flatten_length hinfo
  have hdlen : ∀ b ∈ dbytes, b.length = BLOCK := by
    intro b hb
    rw [hdb] at hb
    obtain ⟨db, hdbm, rfl⟩ := List.mem_map.mp hb
    exact DataBlock.write_length (hdbs db hdbm)
  have htot : BLOCK ≤ (ibytes ++ dbytes.flatten).length := by
    simp [hi]
  have hs1 : (ibytes ++ dbytes.flatten).take BLOCK = ibytes :=
    List.take_left' hi
  have hs2 : (ibytes ++ dbytes.flatten).drop BLOCK = dbytes.flatten :=
    List.drop_left' hi
  have s3 : InfoBlock.open_block (Block.mk ibytes) = .ok m.info :=
    InfoBlock.open_record_bytes hinfo hc
  have s4 : read_blocks_loop [] dbytes.flatten =
      .ok (dbytes.map Block.mk) := by
    have := read_blocks_loop_concat dbytes [] [] hdlen
      (by simp [hdb, hlen15]) (by
        intro hnil
        have := congrArg List.length hnil
        simp [hdb, hlen15] at this)
    rw [List.append_nil] at this
    simpa using this
  have s5 : DataBlock.load_all_data_blocks
      (dbytes.map Block.mk) = .ok m.data := by
    rw [hdb, List.map_map]
    exact load_all_write m.data hdbs
  unfold MemCard.open_bytes
  rw [if_pos htot, hs1, hs2]
  simp only [s3, s4, s5]

/-- Round trip at the byte level: writing a well formed, checksum
consistent MemCard and reopening the resulting bytes restores the card. -/
theorem MemCard.write_open_roundtrip {m : MemCard} (hWF : m.WF)
    (hc : m.consistent) : m.write_bytes.bind MemCard.open_bytes = .ok m := by
  rw [MemCard.write_bytes_ok hWF.1 hc]
  simp only [Except.bind]
  exact MemCard.open_write hWF hc

/-! Failure propagation through the staged InfoBlock parse. -/

theorem load_stage_bad {α : Type} (dec : List Nat → α) (l : List Nat)
    (a cnt j : Nat) (hle : FRAME * (a + cnt) ≤ l.length)
    (hja : a ≤ j) (hjc : j < a + cnt)
    (hbad : validate_checksum (l.drop (FRAME * j)) = .error .BadChecksum)
    (hmin : ∀ k, a ≤ k → k < j →
      validate_checksum (l.drop (FRAME * k)) = .ok ()) :
    load_records dec (l.drop (FRAME * a)) cnt = .error .BadChecksum := by
  have hsplit := drop_eq_chunks l a (j - a)
    (le_trans (Nat.mul_le_mul (le_refl FRAME) (by omega)) hle)
  rw [show a + (j - a) = j by omega] at hsplit
  rw [hsplit]
  apply load_records_bad
  · intro r hr
    obtain ⟨i, hi, rfl⟩ := List.mem_map.mp hr
    rw [List.mem_range] at hi
    exact chunk_record_ok
      (le_trans (Nat.mul_le_mul (le_refl FRAME) (by omega)) hle)
      (hmin (a + i) (by omega) (by omega))
  · simp only [List.length_map, List.length_range]
    omega
  · exact hbad

theorem load_stage_ok {α : Type} (dec : List Nat → α) (l : List Nat)
    (a cnt : Nat) (hcnt : 1 ≤ cnt) (hle : FRAME * (a + cnt) ≤ l.length)
    (hok : ∀ k, a ≤ k → k < a + cnt →
      validate_checksum (l.drop (FRAME * k)) = .ok ()) :
    load_records dec (l.drop (FRAME * a)) cnt =
      .ok (((List.range cnt).map (fun i => chunk l (a + i))).map dec) := by
  rw [drop_eq_chunks l a cnt hle]
  apply load_records_concat
  · intro r hr
    obtain ⟨i, hi, rfl⟩ := List.mem_map.mp hr
    rw [List.mem_range] at hi
    exact chunk_record_ok
      (le_trans (Nat.mul_le_mul (le_refl FRAME) (by omega)) hle)
      (hok (a + i) (by omega) (by omega))
  · simp
  · intro hnil
    have := congrArg List.length hnil
    simp only [List.length_map, List.length_range, List.length_nil] at this
    omega

theorem InfoBlock.open_bad {b : Block} (hlen : b.data.length = BLOCK)
    {j : Nat} (hj : j < 64)
    (hbad : validate_checksum (b.data.drop (FRAME * j)) = .error .BadChecksum)
    (hmin : ∀ k < j, validate_checksum (b.data.drop (FRAME * k)) = .ok ()) :
    InfoBlock.open_block b = .error .BadChecksum := by
  have hble : ∀ c : Nat, c ≤ 64 → FRAME * c ≤ b.data.length := by
    intro c hc
    rw [hlen]
    calc FRAME * c ≤ FRAME * 64 := Nat.mul_le_mul (le_refl FRAME) hc
    _ = BLOCK := by norm_num [FRAME, BLOCK]
  have hdrop0 : b.data.drop (FRAME * 0) = b.data := by
    simp
  rcases Nat.lt_or_ge j 1 with h1 | h1
  · have hj0 : j = 0 := by omega
    subst hj0
    rw [hdrop0] at hbad
    unfold InfoBlock.open_block
    rw [hbad]
  · have s0 : validate_checksum b.data = .ok () := by
      rw [← hdrop0]
      exact hmin 0 (by omega)
    have s0b : Header.from_bytes b.data =
        .ok (b.data.drop 128, Header.decode (b.data.take 128)) := by
      unfold Header.from_bytes from_bytes128
      rw [if_pos (by rw [hlen]; norm_num [FRAME, BLOCK])]
      rfl
    have hd1 : b.data.drop 128 = b.data.drop (FRAME * 1) := by
      norm_num [FRAME]
    rcases Nat.lt_or_ge j 16 with h16 | h16
    · have s1 : DirectoryFrame.load (b.data.drop 128) 15 =
          .error .BadChecksum := by
        rw [hd1]
        exact load_stage_bad DirectoryFrame.decode b.data 1 15 j
          (hble 16 (by omega)) (by omega) (by omega) hbad
          (fun k _ hk => hmin k hk)
      simp only [InfoBlock.open_block, s0, s0b, s1, FRAME]
    · have s1 : DirectoryFrame.load (b.data.drop 128) 15 =
          .ok (((List.range 15).map (fun i => chunk b.data (1 + i))).map
            DirectoryFrame.decode) := by
        rw [hd1]
        exact load_stage_ok DirectoryFrame.decode b.data 1 15 (by omega)
          (hble 16 (by omega)) (fun k _ hk => hmin k (by omega))
      have hL1len : (((List.range 15).map (fun i => chunk b.data (1 + i))).map
          DirectoryFrame.decode).length = 15 := by
        simp
      have hd2 : b.data.drop 2048 = b.data.drop (FRAME * 16) := by
        norm_num [FRAME]
      rcases Nat.lt_or_ge j 36 with h36 | h36
      · have s2 : BrokenFrame.load (b.data.drop 2048) 20 =
            .error .BadChecksum := by
          rw [hd2]
          exact load_stage_bad BrokenFrame.decode b.data 16 20 j
            (hble 36 (by omega)) (by omega) (by omega) hbad
            (fun k _ hk => hmin k hk)
        simp only [InfoBlock.open_block, s0, s0b, s1, hL1len, s2, FRAME]
      · have s2 : BrokenFrame.load (b.data.drop 2048) 20 =
            .ok (((List.range 20).map (fun i => chunk b.data (16 + i))).map
              BrokenFrame.decode) := by
          rw [hd2]
          exact load_stage_ok BrokenFrame.decode b.data 16 20 (by omega)
            (hble 36 (by omega)) (fun k _ hk => hmin k (by omega))
        have hL2len : (((List.range 20).map
            (fun i => chunk b.data (16 + i))).map BrokenFrame.decode).length =
            20 := by
          simp
        have hd3 : b.data.drop 4608 = b.data.drop (FRAME * 36) := by
          norm_num [FRAME]
        rcases Nat.lt_or_ge j 63 with h63 | h63
        · have s3 : Frame.load (b.data.drop 4608) 27 = .error .BadChecksum := by
            rw [hd3]
            exact load_stage_bad Frame.decode b.data 36 27 j
              (hble 63 (by omega)) (by omega) (by omega) hbad
              (fun k _ hk => hmin k hk)
          simp only [InfoBlock.open_block, s0, s0b, s1, hL1len, s2, hL2len,
            s3, FRAME]
        · have hj63 : j = 63 := by omega
          subst hj63
          have s3 : Frame.load (b.data.drop 4608) 27 =
              .ok (((List.range 27).map (fun i => chunk b.data (36 + i))).map
                Frame.decode) := by
            rw [hd3]
            exact load_stage_ok Frame.decode b.data 36 27 (by omega)
              (hble 63 (by omega)) (fun k _ hk => hmin k (by omega))
          have hL3len : (((List.range 27).map
              (fun i => chunk b.data (36 + i))).map Frame.decode).length =
              27 := by
            simp
          have s4 : validate_checksum (b.data.drop 8064) =
              .error .BadChecksum := by
            rw [show (8064 : Nat) = FRAME * 63 by norm_num [FRAME]]
            exact hbad
          simp only [InfoBlock.open_block, s0, s0b, s1, hL1len, s2, hL2len,
            s3, hL3len, s4, FRAME]

/-! Success inversion for the DataBlock loader. -/

theorem read_n_frames_len {input : List Nat} {n : Nat} {l : List Frame}
    (h : DataBlock.read_n_frames input n = .ok l) : l.length = n := by
  unfold DataBlock.read_n_frames at h
  by_cases hl : FRAME ≤ input.length
  · rw [if_pos hl] at h
    exact read_n_loop_len (input.drop FRAME).length _ _ _ _ (le_refl _) h
  · rw [if_neg hl] at h
    cases h

theorem load_data_block_counts {b : Block} {db : DataBlock}
    (hlen : b.data.length = BLOCK)
    (h : DataBlock.load_data_block b = .ok db) :
    db.icon_frames.length = db.title_frame.display &&& 0x03 ∧
    db.data_frames.length =
      (BLOCK - FRAME - db.icon_frames.length * FRAME) / FRAME := by
  unfold DataBlock.load_data_block at h
  cases hf : TitleFrame.from_bytes b.data with
  | error e =>
    rw [hf] at h
    cases h
  | ok p =>
    obtain ⟨rest, tf⟩ := p
    rw [hf] at h
    simp only [] at h
    cases hic : DataBlock.read_n_frames (b.data.drop FRAME)
        (tf.display &&& 3) with
    | error e =>
      rw [hic] at h
      cases h
    | ok icons =>
      rw [hic] at h
      simp only [] at h
      cases hdt : DataBlock.read_n_frames
          (b.data.drop (FRAME + FRAME * icons.length))
          ((b.data.drop (FRAME + FRAME * icons.length)).length / FRAME) with
      | error e =>
        rw [hdt] at h
        cases h
      | ok datas =>
        rw [hdt] at h
        simp only [Except.ok.injEq] at h
        subst h
        have hiclen : icons.length = tf.display &&& 3 :=
          read_n_frames_len hic
        have hdtlen : datas.length =
            (b.data.drop (FRAME + FRAME * icons.length)).length / FRAME :=
          read_n_frames_len hdt
        refine ⟨hiclen, ?_⟩
        simp only [List.length_drop, hlen, FRAME, BLOCK] at hdtlen ⊢
        omega

/-! Icon translator lemmas. -/

/-- Specification formula for one translated pixel: the three packed 5 bit
channels (bits 0 to 4, 5 to 9 and 10 to 14) each expanded by multiplying
by 8, followed by a constant 255 alpha; bit 15 never contributes. -/
def pixel_rgba (p : Nat) : List Nat :=
  [p % 32 * 8, p / 32 % 32 * 8, p / 1024 % 32 * 8, 255]

theorem and_div_32 (a b : Nat) : (a &&& b) / 32 = a / 32 &&& b / 32 := by
  have h32 : ∀ x : Nat, x / 32 = x / 2 / 2 / 2 / 2 / 2 := by
    intro x
    omega
  rw [h32, h32 a, h32 b, Nat.and_div_two, Nat.and_div_two, Nat.and_div_two,
    Nat.and_div_two, Nat.and_div_two]

theorem and_div_1024 (a b : Nat) : (a &&& b) / 1024 = a / 1024 &&& b / 1024 := by
  have h1024 : ∀ x : Nat, x / 1024 = x / 2 / 2 / 2 / 2 / 2 / 2 / 2 / 2 / 2 / 2 := by
    intro x
    omega
  rw [h1024, h1024 a, h1024 b, Nat.and_div_two, Nat.and_div_two,
    Nat.and_div_two, Nat.and_div_two, Nat.and_div_two, Nat.and_div_two,
    Nat.and_div_two, Nat.and_div_two, Nat.and_div_two, Nat.and_div_two]

theorem and_31_eq_mod (p : Nat) : p &&& 31 = p % 32 := by
  have := Nat.and_pow_two_sub_one_eq_mod p 5
  norm_num at this
  exact this

theorem and_15_eq_mod (p : Nat) : p &&& 15 = p % 16 := by
  have := Nat.and_pow_two_sub_one_eq_mod p 4
  norm_num at this
  exact this

theorem push_pixel_eq (p : Nat) : push_pixel p = pixel_rgba p := by
  unfold push_pixel pixel_rgba
  have hr : p &&& 0x001f = p % 32 := and_31_eq_mod p
  have hg : (p &&& 0x001f <<< 5) >>> 5 = p / 32 % 32 := by
    rw [show (0x001f <<< 5 : Nat) = 992 from rfl,
      Nat.shiftRight_eq_div_pow, show (2 ^ 5 : Nat) = 32 by norm_num,
      and_div_32, show (992 / 32 : Nat) = 31 by norm_num, and_31_eq_mod]
  have hb : (p &&& 0x001f <<< 10) >>> 10 = p / 1024 % 32 := by
    rw [show (0x001f <<< 10 : Nat) = 31744 from rfl,
      Nat.shiftRight_eq_div_pow, show (2 ^ 10 : Nat) = 1024 by norm_num,
      and_div_1024, show (31744 / 1024 : Nat) = 31 by norm_num, and_31_eq_mod]
  rw [hr, hg, hb]

theorem get?_of_lt_length {palette : List Nat} {idx : Nat}
    (hidx : idx < palette.length) :
    palette.get? idx = some (palette.getD idx 0) := by
  rw [List.get?_eq_getElem?, List.getElem?_eq_getElem hidx,
    List.getD_eq_getElem _ 0 hidx]

theorem translate_loop_eq (palette : List Nat) (data : List Nat)
    (hpal : palette.length = 16) :
    translate_loop palette data = some (data.flatMap (fun v =>
      push_pixel (palette.getD (v % 16) 0) ++
        push_pixel (palette.getD (v / 16 % 16) 0))) := by
  induction data with
  | nil => rfl
  | cons v rest ih =>
    have h0 : (v >>> 0) &&& 0x0f = v % 16 := by
      rw [Nat.shiftRight_zero, and_15_eq_mod]
    have h4 : (v >>> 4) &&& 0x0f = v / 16 % 16 := by
      rw [Nat.shiftRight_eq_div_pow, show (2 ^ 4 : Nat) = 16 by norm_num,
        and_15_eq_mod]
    unfold translate_loop
    rw [h0, h4, get?_of_lt_length (by rw [hpal]; exact Nat.mod_lt _ (by omega)),
      get?_of_lt_length (by rw [hpal]; exact Nat.mod_lt _ (by omega)), ih]
    simp

theorem flatMap_length_const {l : List Nat} {f : Nat → List Nat} {c : Nat}
    (h : ∀ a ∈ l, (f a).length = c) : (l.flatMap f).length = l.length * c := by
  induction l with
  | nil => simp
  | cons a rest ih =>
    simp only [List.flatMap_cons, List.length_append, List.length_cons,
      h a (by simp)]
    rw [ih (fun a ha => h a (by simp [ha]))]
    ring

/-! Title decoder lemmas. -/

/-- Character classes the decoder can emit: space, ASCII digit, ASCII
uppercase letter, ASCII lowercase letter. -/
def ascii_ok (c : Char) : Prop :=
  c = ' ' ∨ ('0' ≤ c ∧ c ≤ '9') ∨ ('A' ≤ c ∧ c ≤ 'Z') ∨ ('a' ≤ c ∧ c ≤ 'z')

instance (c : Char) : Decidable (ascii_ok c) := by
  unfold ascii_ok
  infer_instance

theorem decode_emit_space {title : List Nat} {p : Nat} {s : String}
    (h : title.get? (p + 1) = some 0x40) :
    decode_emit title p 0x81 s = some (s.push ' ') := by
  unfold decode_emit
  rw [if_pos rfl]
  simp only [h]
  simp

theorem decode_emit_skip81 {title : List Nat} {p trail : Nat} {s : String}
    (h : title.get? (p + 1) = some trail) (ht : trail ≠ 0x40) :
    decode_emit title p 0x81 s = some s := by
  unfold decode_emit
  rw [if_pos rfl]
  simp only [h]
  rw [if_neg ht]

theorem decode_emit_digit_upper {title : List Nat} {p trail : Nat}
    {s : String} (h : title.get? (p + 1) = some trail)
    (hr : (0x4f ≤ trail ∧ trail ≤ 0x58) ∨ (0x60 ≤ trail ∧ trail ≤ 0x79)) :
    decode_emit title p 0x82 s =
      some (s.push (Char.ofNat (trail - 0x1f))) := by
  unfold decode_emit
  rw [if_neg (by norm_num), if_pos rfl]
  simp only [h]
  rw [if_pos hr]

theorem decode_emit_lower {title : List Nat} {p trail : Nat} {s : String}
    (h : title.get? (p + 1) = some trail)
    (hr : 0x81 ≤ trail ∧ trail ≤ 0x9a) :
    decode_emit title p 0x82 s =
      some (s.push (Char.ofNat (trail - 0x20))) := by
  unfold decode_emit
  rw [if_neg (by norm_num), if_pos rfl]
  simp only [h]
  rw [if_neg (by omega), if_pos hr]

theorem decode_emit_other {title : List Nat} {p lead : Nat} {s : String}
    (h1 : lead ≠ 0x81) (h2 : lead ≠ 0x82) :
    decode_emit title p lead s = some s := by
  unfold decode_emit
  rw [if_neg h1, if_neg h2]

theorem decode_loop_stop {title : List Nat} {p : Nat} {s : String}
    (h : title.get? p = some 0) : decode_loop title p s = some s := by
  rw [decode_loop, h]
  simp

theorem decode_loop_emit {title : List Nat} {p lead : Nat} {s s2 : String}
    (h : title.get? p = some lead) (h0 : lead ≠ 0)
    (he : decode_emit title p lead s = some s2) :
    decode_loop title p s =
      if p + 2 ≥ title.length then some s2
      else decode_loop title (p + 2) s2 := by
  rw [decode_loop, h]
  simp only [if_neg h0, he]
  split <;> rfl

theorem decode_emit_good {title : List Nat} {p lead : Nat} {s : String}
    (h1 : p + 1 < title.length) :
    ∃ s2, decode_emit title p lead s = some s2 ∧
      s2.data.length ≤ s.data.length + 1 ∧
      (∀ c ∈ s2.data, c ∈ s.data ∨ ascii_ok c) := by
  obtain ⟨trail, htr⟩ : ∃ trail, title.get? (p + 1) = some trail := by
    rw [List.get?_eq_getElem?]
    exact ⟨_, List.getElem?_eq_getElem h1⟩
  by_cases hl1 : lead = 0x81
  · subst hl1
    by_cases ht : trail = 0x40
    · subst ht
      refine ⟨s.push ' ', decode_emit_space htr, ?_, ?_⟩
      · simp
      · intro c hc
        rw [String.data_push, List.mem_append] at hc
        rcases hc with hc | hc
        · exact Or.inl hc
        · simp only [List.mem_singleton] at hc
          subst hc
          exact Or.inr (Or.inl rfl)
    · exact ⟨s, decode_emit_skip81 htr ht, by omega, fun c hc => Or.inl hc⟩
  by_cases hl2 : lead = 0x82
  · subst hl2
    by_cases hr : (0x4f ≤ trail ∧ trail ≤ 0x58) ∨ (0x60 ≤ trail ∧ trail ≤ 0x79)
    · refine ⟨s.push (Char.ofNat (trail - 0x1f)),
        decode_emit_digit_upper htr hr, by simp, ?_⟩
      intro c hc
      rw [String.data_push, List.mem_append] at hc
      rcases hc with hc | hc
      · exact Or.inl hc
      · simp only [List.mem_singleton] at hc
        subst hc
        right
        rcases hr with ⟨ha, hb⟩ | ⟨ha, hb⟩ <;> interval_cases trail <;> decide
    · by_cases hr2 : 0x81 ≤ trail ∧ trail ≤ 0x9a
      · refine ⟨s.push (Char.ofNat (trail - 0x20)),
          decode_emit_lower htr hr2, by simp, ?_⟩
        intro c hc
        rw [String.data_push, List.mem_append] at hc
        rcases hc with hc | hc
        · exact Or.inl hc
        · simp only [List.mem_singleton] at hc
          subst hc
          right
          obtain ⟨ha, hb⟩ := hr2
          interval_cases trail <;> decide
      · refine ⟨s, ?_, by omega, fun c hc => Or.inl hc⟩
        unfold decode_emit
        rw [if_neg (by norm_num), if_pos rfl]
        simp only [htr]
        rw [if_neg hr, if_neg hr2]
  · exact ⟨s, decode_emit_other hl1 hl2, by omega, fun c hc => Or.inl hc⟩

theorem decode_loop_good : ∀ (fuel : Nat) (title : List Nat) (p : Nat)
    (s : String), title.length = 64 → p % 2 = 0 → p < 64 → 64 - p ≤ fuel →
    (∀ c ∈ s.data, ascii_ok c) →
    ∃ t : String, decode_loop title p s = some t ∧
      (∀ c ∈ t.data, ascii_ok c) ∧
      t.data.length ≤ s.data.length + (64 - p) / 2 := by
  intro fuel
  induction fuel with
  | zero =>
    intro title p s hlen hpar hp hfuel hs
    omega
  | succ m ih =>
    intro title p s hlen hpar hp hfuel hs
    obtain ⟨lead, hlead⟩ : ∃ lead, title.get? p = some lead := by
      rw [List.get?_eq_getElem?]
      exact ⟨_, List.getElem?_eq_getElem (by omega)⟩
    by_cases h0 : lead = 0
    · subst h0
      exact ⟨s, decode_loop_stop hlead, hs, by omega⟩
    · obtain ⟨s2, he, hlen2, hmem2⟩ :=
        @decode_emit_good title p lead s
          (show p + 1 < title.length by omega)
      have hs2 : ∀ c ∈ s2.data, ascii_ok c := by
        intro c hc
        rcases hmem2 c hc with hc2 | hc2
        · exact hs c hc2
        · exact hc2
      rw [decode_loop_emit hlead h0 he]
      by_cases hend : p + 2 ≥ title.length
      · rw [if_pos hend]
        exact ⟨s2, rfl, hs2, by omega⟩
      · rw [if_neg hend]
        obtain ⟨t, ht, htok, htlen⟩ := ih title (p + 2) s2 hlen (by omega)
          (by omega) (by omega) hs2
        exact ⟨t, ht, htok, by omega⟩

/-! Helpers for the checksum recomputation and verbatim emission facts. -/

theorem validate_stamped {r : List Nat} (h : FRAME ≤ r.length) :
    validate_checksum (r.set 127 (calc_checksum r)) = .ok () := by
  apply validate_ok_of_consistent (by simpa using h)
  have h127 : 127 < r.length := by
    simp only [FRAME] at h
    omega
  rw [calc_checksum_set127,
    List.getD_eq_getElem _ 0 (show 127 < (r.set 127 (calc_checksum r)).length
      by simpa using h127)]
  simp

theorem stamped_chunk_valid {recs : List (List Nat)}
    (h : ∀ r ∈ recs, r.length = FRAME) {out : List Nat}
    (hout : stamp_concat recs = .ok out) :
    ∀ j < recs.length, validate_checksum (out.drop (FRAME * j)) = .ok () := by
  intro j hj
  rw [stamp_concat_stamped (fun r hr => le_of_eq (h r hr).symm)] at hout
  have hout2 : out =
      (recs.map (fun r => r.set (FRAME - 1) (calc_checksum r))).flatten := by
    cases hout
    rfl
  subst hout2
  set stamped := recs.map (fun r => r.set (FRAME - 1) (calc_checksum r))
    with hstamped
  have hslen : ∀ r ∈ stamped, r.length = FRAME := by
    intro r hr
    rw [hstamped] at hr
    obtain ⟨r0, hr0, rfl⟩ := List.mem_map.mp hr
    simpa using h r0 hr0
  have hjlen : j < stamped.length := by
    rw [hstamped]
    simpa using hj
  rw [flatten_drop_const hslen j,
    List.drop_eq_getElem_cons hjlen, List.flatten_cons]
  have hmem : stamped[j] ∈ stamped := List.getElem_mem hjlen
  have hjr : j < recs.length := hj
  have hgetm : stamped[j] = recs[j].set (FRAME - 1) (calc_checksum recs[j]) := by
    simp only [hstamped, List.getElem_map]
  rw [validate_take (by
    simp only [List.length_append, hslen stamped[j] hmem, FRAME]
    omega), List.take_left' (hslen stamped[j] hmem), hgetm,
    show FRAME - 1 = 127 from rfl]
  exact validate_stamped
    (le_of_eq (h recs[j] (List.getElem_mem hjr)).symm)

theorem write_data_chunk {db : DataBlock} (hWF : db.WF) {i : Nat} {f : Frame}
    (hf : db.data_frames.get? i = some f) :
    ((DataBlock.write db).drop (FRAME * (1 + db.icon_frames.length + i))).take
      FRAME = f.data := by
  obtain ⟨h1, h2, h3, h4, h5, h6⟩ := hWF
  have hfWF : f.data.length = FRAME := h6 f (List.get?_mem hf)
  have hi : i < db.data_frames.length := by
    by_contra hge
    rw [List.get?_eq_getElem?, List.getElem?_eq_none (by omega)] at hf
    cases hf
  have htl : db.title_frame.to_bytes.length = FRAME :=
    TitleFrame_to_bytes_length h1
  set IB := db.icon_frames.map Frame.to_bytes with hIB
  set SB := db.data_frames.map Frame.to_bytes with hSB
  have hIlen : IB.flatten.length = db.icon_frames.length * FRAME :=
    DataBlock.icon_bytes_length h4
  have hpre : (db.title_frame.to_bytes ++ IB.flatten).length =
      FRAME * (1 + db.icon_frames.length) := by
    simp only [List.length_append, htl, hIlen]
    ring
  have harith : FRAME * (1 + db.icon_frames.length + i) =
      (db.title_frame.to_bytes ++ IB.flatten).length + FRAME * i := by
    rw [hpre]
    ring
  have hw : DataBlock.write db =
      (db.title_frame.to_bytes ++ IB.flatten) ++ SB.flatten := by
    unfold DataBlock.write
    rw [List.append_assoc]
  rw [hw, harith, List.drop_append, flatten_drop_const (by
    intro r hr
    rw [hSB] at hr
    obtain ⟨f0, hf0, rfl⟩ := List.mem_map.mp hr
    exact h6 f0 hf0) i]
  have hSB_drop : SB.drop i = f.data :: (db.data_frames.drop (i + 1)).map
      Frame.to_bytes := by
    rw [hSB, ← List.map_drop,
      List.drop_eq_getElem_cons hi, List.map_cons]
    congr 1
    rw [List.get?_eq_getElem?, List.getElem?_eq_getElem hi] at hf
    cases hf
    rfl
  rw [hSB_drop, List.flatten_cons, List.take_left' hfWF]

/-- XOR fold over a block of zero bytes is the identity. -/
theorem foldl_xor_replicate_zero (c n : Nat) :
    List.foldl (fun a b => a ^^^ b) c (List.replicate n 0) = c := by
  induction n generalizing c with
  | zero => rfl
  | succ k ih =>
    rw [List.replicate_succ, List.foldl_cons, Nat.xor_zero, ih]

/-! Concrete records used by the witnesses and counterexamples. -/

/-- An all zero header; its checksum byte 0 is consistent (XOR of zeros). -/
def header0 : Header := ⟨[0, 0], List.replicate 125 0, 0⟩

/-- An all zero directory frame with consistent checksum byte. -/
def dir0 : DirectoryFrame :=
  ⟨0, 0, 0, List.replicate 21 0, List.replicate 96 0, 0⟩

/-- An all zero broken frame with consistent checksum byte. -/
def broken0 : BrokenFrame := ⟨0, List.replicate 123 0, 0⟩

/-- An all zero frame. -/
def frame0 : Frame := ⟨List.replicate 128 0⟩

/-- A zero info block with the fixed record counts. -/
def info0 : InfoBlock :=
  ⟨header0, List.replicate 15 dir0, List.replicate 20 broken0,
    List.replicate 27 frame0, header0⟩

/-- A title frame with `display = 0x11` (one icon frame). -/
def title_frame0 : TitleFrame :=
  ⟨[0, 0], 0x11, 0, List.replicate 64 0, List.replicate 28 0,
    List.replicate 16 0⟩

/-- A structurally well formed data block: one icon frame, 62 data frames. -/
def db0 : DataBlock := ⟨title_frame0, [frame0], List.replicate 62 frame0⟩

/-- A checksum consistent, structurally well formed memory card. -/
def mc0 : MemCard := ⟨info0, List.replicate 15 db0⟩

/-- A title frame whose title field starts `[0x82, 0x60, 0x82, 0x61, 0x00]`:
the Shift-JIS pairs for the string AB followed by the terminator. -/
def title_frameAB : TitleFrame :=
  ⟨[0, 0], 0x11, 0, [0x82, 0x60, 0x82, 0x61, 0x00] ++ List.replicate 59 0,
    List.replicate 28 0, List.replicate 16 0⟩

/-- A title frame whose title field starts with the terminator `0x00`. -/
def title_frame00 : TitleFrame :=
  ⟨[0, 0], 0x11, 0, 0x00 :: List.replicate 63 0, List.replicate 28 0,
    List.replicate 16 0⟩

/-! Claim theorems. -/

/-- C1 (amended): for every 8192 byte Block whose TitleFrame `display`
field (byte 2 of the block) has low two bits 0, `DataBlock::load_data_block`
fails with a deku parse error rather than succeeding: `read_n_frames`
always reads at least one frame before comparing the count, so a target of
0 icon frames keeps reading frames until the block is exhausted and the
next read fails. No DataBlock with zero icon frames is ever returned. -/
theorem C1_icon_count_zero_errors (b : Block) (hlen : b.data.length = BLOCK)
    (hdisp : b.data.getD 2 0 &&& 0x03 = 0) :
    DataBlock.load_data_block b = .error .Deku :=
  load_data_block_display0 hlen hdisp

/-- Concrete block with `display = 0x14` for the C1 counterexample. -/
def blockC1 : Block := Block.mk ([0x53, 0x43, 0x14, 0] ++ List.replicate 8188 0)

/-- C1 counterexample: on the concrete 8192 byte block whose display byte
is `0x14` (low two bits 0), parsing does not succeed: it returns a deku
error, refuting the claim that the parse returns successfully with zero
icon frames and 63 payload frames. -/
theorem C1_counterexample :
    blockC1.data.getD 2 0 = 0x14 ∧
    DataBlock.load_data_block blockC1 = .error .Deku := by
  constructor
  · rfl
  · apply load_data_block_display0
    · simp only [blockC1, List.length_append, List.length_cons,
        List.length_nil, List.length_replicate, BLOCK]
    · rfl

/-- C1 witness: the amended theorem applied to the same concrete block. -/
theorem C1_witness :
    blockC1.data.length = BLOCK ∧ blockC1.data.getD 2 0 &&& 0x03 = 0 ∧
    DataBlock.load_data_block blockC1 = .error .Deku := by
  have hlen : blockC1.data.length = BLOCK := by
    simp only [blockC1, List.length_append, List.length_cons,
      List.length_nil, List.length_replicate, BLOCK]
  exact ⟨hlen, rfl, C1_icon_count_zero_errors blockC1 hlen rfl⟩

/-- C4: for every 128 byte record, `validate_checksum` fails with
`BadChecksum` exactly when the XOR of bytes 0 to 126 differs from byte
127; `update_checksum` writes that XOR into byte 127 and the result always
validates; and setting the last byte to any other value makes validation
fail with `BadChecksum`. -/
theorem C4_validate_stamp (d : List Nat) (hlen : d.length = FRAME) :
    (validate_checksum d = .error .BadChecksum ↔
      calc_checksum d ≠ d.getD 127 0) ∧
    update_checksum d = .ok (d.set 127 (calc_checksum d)) ∧
    validate_checksum (d.set 127 (calc_checksum d)) = .ok () ∧
    (∀ b : Nat, b ≠ calc_checksum d →
      validate_checksum (d.set 127 b) = .error .BadChecksum) := by
  have hle : FRAME ≤ d.length := le_of_eq hlen.symm
  have hcases := validate_cases hle
  have hiff := validate_ok_iff hle
  have h127 : 127 < d.length := by
    simp only [FRAME] at hlen
    omega
  refine ⟨⟨?_, ?_⟩, ?_, ?_, ?_⟩
  · intro herr hcalc
    rw [hiff.mpr hcalc] at herr
    cases herr
  · intro hne
    rcases hcases with hok | herr
    · exact absurd (hiff.mp hok) hne
    · exact herr
  · have := update_checksum_ok hle
    rw [show FRAME - 1 = 127 from rfl] at this
    exact this
  · exact validate_stamped hle
  · intro b hb
    have hsle : FRAME ≤ (d.set 127 b).length := by
      simpa using hle
    rcases validate_cases hsle with hok | herr
    · exfalso
      have := (validate_ok_iff hsle).mp hok
      rw [calc_checksum_set127, List.getD_eq_getElem?_getD,
        List.getElem?_set_self h127] at this
      simp only [Option.getD_some] at this
      exact hb this.symm
    · exact herr

/-- C4 witness: the theorem applied to the concrete record
`1 :: replicate 127 0`, whose checksum over the first 127 bytes is 1. -/
theorem C4_witness :
    ((1 : Nat) :: List.replicate 127 0).length = FRAME ∧
    validate_checksum (1 :: List.replicate 127 0) = .error .BadChecksum ∧
    update_checksum (1 :: List.replicate 127 0) =
      .ok ((1 :: List.replicate 127 0).set 127
        (calc_checksum (1 :: List.replicate 127 0))) := by
  have hlen : ((1 : Nat) :: List.replicate 127 0).length = FRAME := by decide
  have h := C4_validate_stamp (1 :: List.replicate 127 0) hlen
  exact ⟨hlen, h.1.mpr (by decide), h.2.1⟩

/-- C9: checksum validation computes the XOR of exactly the first 127
bytes and compares it to byte 127. On any slice of length at least 128 it
is total, returning either success or `BadChecksum` and never panicking;
on any shorter slice the access to byte 127 is out of bounds (a Rust
panic), so length at least 128 is a precondition of both validation and
stamping. -/
theorem C9_validate_total (d : List Nat) :
    (FRAME ≤ d.length →
      (validate_checksum d = .ok () ∨
        validate_checksum d = .error .BadChecksum) ∧
      (validate_checksum d = .ok () ↔
        List.foldl (fun c i => c ^^^ i) 0 (d.take 127) = d.getD 127 0)) ∧
    (d.length < FRAME →
      validate_checksum d = .error .Panic ∧
      update_checksum d = .error .Panic) := by
  constructor
  · intro hle
    exact ⟨validate_cases hle, validate_ok_iff hle⟩
  · intro hlt
    exact ⟨validate_short hlt, update_checksum_short hlt⟩

/-- C9 witness: the theorem applied to a 128 byte record (totality and
the XOR comparison) and to a 3 byte slice (panic). -/
theorem C9_witness :
    FRAME ≤ (List.replicate 128 (0 : Nat)).length ∧
    validate_checksum (List.replicate 128 (0 : Nat)) = .ok () ∧
    ([(1 : Nat), 2, 3].length < FRAME ∧
      validate_checksum [(1 : Nat), 2, 3] = .error .Panic ∧
      update_checksum [(1 : Nat), 2, 3] = .error .Panic) := by
  have h1 := (C9_validate_total (List.replicate 128 0)).1 (by decide)
  have h2 := (C9_validate_total [1, 2, 3]).2 (by decide)
  exact ⟨by decide, h1.2.mpr (by decide), by decide, h2.1, h2.2⟩

/-- C8: for every successfully parsed DataBlock from an 8192 byte block,
the icon frame count equals `display & 0x03` and the payload frame count
equals `(BLOCK - FRAME - icon_count * FRAME) / FRAME`. -/
theorem C8_payload_count (b : Block) (db : DataBlock)
    (hlen : b.data.length = BLOCK)
    (h : DataBlock.load_data_block b = .ok db) :
    db.icon_frames.length = db.title_frame.display &&& 0x03 ∧
    db.data_frames.length =
      (BLOCK - FRAME - db.icon_frames.length * FRAME) / FRAME :=
  load_data_block_counts hlen h

/-- Title frame with `display = 0x12` (two icon frames) for C8. -/
def title_frameC8 : TitleFrame :=
  ⟨[0, 0], 0x12, 0, List.replicate 64 0, List.replicate 28 0,
    List.replicate 16 0⟩

/-- Data block with two icon frames and 61 payload frames. -/
def dbC8 : DataBlock :=
  ⟨title_frameC8, List.replicate 2 frame0, List.replicate 61 frame0⟩

/-- The 8192 byte block serializing `dbC8`. -/
def blockC8 : Block := Block.mk dbC8.write

/-- C8 witness: a concrete block with `display = 0x12` parses to a
DataBlock with 2 icon frames and 61 payload frames, matching the derived
formula. -/
theorem C8_witness :
    blockC8.data.length = BLOCK ∧
    DataBlock.load_data_block blockC8 = .ok dbC8 ∧
    dbC8.icon_frames.length = dbC8.title_frame.display &&& 0x03 ∧
    dbC8.data_frames.length =
      (BLOCK - FRAME - dbC8.icon_frames.length * FRAME) / FRAME := by
  have hWF : dbC8.WF := by decide
  have hlen : blockC8.data.length = BLOCK := DataBlock.write_length hWF
  have hload : DataBlock.load_data_block blockC8 = .ok dbC8 :=
    DataBlock.load_write hWF
  exact ⟨hlen, hload, (C8_payload_count blockC8 dbC8 hlen hload).1,
    (C8_payload_count blockC8 dbC8 hlen hload).2⟩

/-- C2 (amended): the save path recomputes checksums only for the
InfoBlock: every 128 byte record emitted by `InfoBlock::write` is
checksum consistent, while `DataBlock::write` emits every icon and data
frame byte for byte unchanged (no checksum recomputation), and
`MemCard::write` is exactly the InfoBlock output followed by the verbatim
DataBlock outputs. -/
theorem C2_checksums_on_save :
    (∀ (ib : InfoBlock) (out : List Nat), ib.WF → InfoBlock.write ib = .ok out →
      ∀ j < 64, validate_checksum (out.drop (FRAME * j)) = .ok ()) ∧
    (∀ (db : DataBlock) (i : Nat) (f : Frame), db.WF →
      db.data_frames.get? i = some f →
      ((DataBlock.write db).drop
        (FRAME * (1 + db.icon_frames.length + i))).take FRAME = f.data) ∧
    (∀ (m : MemCard) (ibytes : List Nat), m.info.write = .ok ibytes →
      MemCard.write_bytes m =
        .ok (ibytes ++ (m.data.map DataBlock.write).flatten)) := by
  refine ⟨?_, ?_, ?_⟩
  · intro ib out hWF hw j hj
    have hcnt : ib.record_bytes.length = 64 := InfoBlock.record_bytes_length hWF
    unfold InfoBlock.write at hw
    exact stamped_chunk_valid (InfoBlock.record_bytes_WF hWF) hw j
      (by omega)
  · intro db i f hWF hf
    exact write_data_chunk hWF hf
  · intro m ibytes h
    unfold MemCard.write_bytes
    rw [h]

/-- Frame whose stored checksum byte (0) does not match the XOR of its
first 127 bytes (1). -/
def badFrame : Frame := ⟨1 :: List.replicate 127 0⟩

/-- Data block whose first payload frame has an inconsistent checksum. -/
def dbC2 : DataBlock :=
  ⟨title_frame0, [frame0], badFrame :: List.replicate 61 frame0⟩

/-- Memory card carrying `dbC2` in slot 0. -/
def mcC2 : MemCard := ⟨info0, dbC2 :: List.replicate 14 db0⟩

/-- C2 counterexample: saving the concrete card `mcC2` succeeds, but the
emitted record at frame offset 66 (the first payload frame of the first
data block) fails checksum validation: the save did not recompute the
checksum byte of every emitted 128 byte record. -/
theorem C2_counterexample :
    (MemCard.write_bytes mcC2).map
      (fun out => validate_checksum (out.drop (FRAME * 66))) =
      .ok (.error .BadChecksum) := by
  have hinfoWF : mcC2.info.WF := by decide
  have hinfoc : mcC2.info.consistent := by decide
  have hval : validate_checksum
      ((mcC2.info.record_bytes.flatten ++
        (mcC2.data.map DataBlock.write).flatten).drop (FRAME * 66)) =
      .error .BadChecksum := by
    have h1 : mcC2.info.record_bytes.flatten.length = 8192 :=
      InfoBlock.flatten_length hinfoWF
    rw [show FRAME * 66 = mcC2.info.record_bytes.flatten.length + 256 by
        rw [h1]
        norm_num [FRAME],
      List.drop_append]
    have hdbflat : (mcC2.data.map DataBlock.write).flatten =
        dbC2.write ++
          ((List.replicate 14 db0).map DataBlock.write).flatten := by
      show ((dbC2 :: List.replicate 14 db0).map DataBlock.write).flatten = _
      rw [List.map_cons, List.flatten_cons]
    rw [hdbflat]
    have hwriteC2 : dbC2.write =
        (title_frame0.to_bytes ++ frame0.data) ++
          (badFrame.data ++
            ((List.replicate 61 frame0).map Frame.to_bytes).flatten) := by
      show title_frame0.to_bytes ++
          ([frame0].map Frame.to_bytes).flatten ++
          ((badFrame :: List.replicate 61 frame0).map
            Frame.to_bytes).flatten = _
      simp [Frame.to_bytes, List.append_assoc]
    have hpre : (title_frame0.to_bytes ++ frame0.data).length = 256 := by
      rw [List.length_append, TitleFrame_to_bytes_length (by decide)]
      decide
    rw [List.drop_append_of_le_length (by
        rw [hwriteC2]
        simp only [List.length_append, hpre]
        omega),
      hwriteC2, ← hpre, List.drop_left]
    have hbadlen : badFrame.data.length = FRAME := by decide
    rw [List.append_assoc, validate_take (by
        simp only [List.length_append, hbadlen, FRAME]
        omega),
      List.take_left' hbadlen]
    decide
  rw [MemCard.write_bytes_ok hinfoWF hinfoc]
  simp only [Except.map, hval]

/-- C2 witness: the amended theorem applied to the concrete info block
`info0` (every emitted record validates) and to `dbC2` (the inconsistent
payload frame is emitted unchanged). -/
theorem C2_witness :
    (∃ out, InfoBlock.write info0 = .ok out ∧
      validate_checksum (out.drop (FRAME * 63)) = .ok ()) ∧
    ((DataBlock.write dbC2).drop (FRAME * (1 + 1 + 0))).take FRAME =
      badFrame.data := by
  constructor
  · have hWF : info0.WF := by decide
    have hc : info0.consistent := by decide
    refine ⟨info0.record_bytes.flatten, InfoBlock.write_ok hWF hc, ?_⟩
    exact C2_checksums_on_save.1 info0 info0.record_bytes.flatten hWF
      (InfoBlock.write_ok hWF hc) 63 (by omega)
  · have h := C2_checksums_on_save.2.1 dbC2 0 badFrame (by decide) (by rfl)
    simpa using h

/-- C3 (amended): for every structurally well formed MemCard (the record
counts of the info block, icon counts matching `display & 0x03` with at
least one icon frame, and all field lengths and integer bounds of the Rust
types) whose stored checksum fields are consistent, serializing with write
and re-parsing with open restores a MemCard equal in all fields, checksum
bytes included. Checksum consistency alone is not enough: the original
claim fails for checksum consistent cards whose `display & 0x03` is 0
(see the counterexample). -/
theorem C3_roundtrip (m : MemCard) (hWF : m.WF) (hc : m.consistent) :
    m.write_bytes.bind MemCard.open_bytes = .ok m :=
  MemCard.write_open_roundtrip hWF hc

/-- Title frame with `display = 0x10`, so `display & 0x03 = 0`. -/
def title_frameC3 : TitleFrame :=
  ⟨[0, 0], 0x10, 0, List.replicate 64 0, List.replicate 28 0,
    List.replicate 16 0⟩

/-- Data block (not producible by the parser) with zero icon frames and
63 payload frames; all its frames are checksum consistent. -/
def dbC3 : DataBlock := ⟨title_frameC3, [], List.replicate 63 frame0⟩

/-- Checksum consistent memory card whose data blocks have
`display & 0x03 = 0`. -/
def mcC3 : MemCard := ⟨info0, List.replicate 15 dbC3⟩

/-- C3 counterexample: `mcC3` has every stored checksum field consistent
with the first 127 bytes of its record, yet write followed by open does
not reproduce it: reopening fails with a deku error because its data
blocks have `display & 0x03 = 0`. Checksum consistency alone does not
guarantee the round trip. -/
theorem C3_counterexample :
    MemCard.consistent mcC3 ∧
    mcC3.write_bytes.bind MemCard.open_bytes = .error .Deku := by
  have hinfoWF : mcC3.info.WF := by decide
  have hinfoc : mcC3.info.consistent := by decide
  have htfWF : title_frameC3.WF := by decide
  refine ⟨hinfoc, ?_⟩
  rw [MemCard.write_bytes_ok hinfoWF hinfoc]
  have hbind : ∀ (x : List Nat),
      (Except.ok x : Except MCError (List Nat)).bind MemCard.open_bytes =
      MemCard.open_bytes x := fun x => rfl
  rw [hbind]
  have hi : mcC3.info.record_bytes.flatten.length = BLOCK :=
    InfoBlock.flatten_length hinfoWF
  have hwl : dbC3.write.length = BLOCK := by
    show (title_frameC3.to_bytes ++
      (([] : List Frame).map Frame.to_bytes).flatten ++
      ((List.replicate 63 frame0).map Frame.to_bytes).flatten).length =
      BLOCK
    rw [List.length_append, List.length_append,
      TitleFrame_to_bytes_length htfWF,
      flatten_length_const (show ∀ r ∈ (List.replicate 63 frame0).map
          Frame.to_bytes, r.length = FRAME by
        intro r hr
        obtain ⟨f, hf, rfl⟩ := List.mem_map.mp hr
        rw [List.eq_of_mem_replicate hf]
        decide)]
    simp [FRAME, BLOCK]
  have hmapw : mcC3.data.map DataBlock.write =
      List.replicate 15 dbC3.write := by
    show (List.replicate 15 dbC3).map DataBlock.write = _
    rw [List.map_replicate]
  have htot : BLOCK ≤ (mcC3.info.record_bytes.flatten ++
      (mcC3.data.map DataBlock.write).flatten).length := by
    simp [hi]
  have hs1 : (mcC3.info.record_bytes.flatten ++
      (mcC3.data.map DataBlock.write).flatten).take BLOCK =
      mcC3.info.record_bytes.flatten := List.take_left' hi
  have hs2 : (mcC3.info.record_bytes.flatten ++
      (mcC3.data.map DataBlock.write).flatten).drop BLOCK =
      (mcC3.data.map DataBlock.write).flatten := List.drop_left' hi
  have s3 : InfoBlock.open_block (Block.mk mcC3.info.record_bytes.flatten) =
      .ok mcC3.info := InfoBlock.open_record_bytes hinfoWF hinfoc
  have s4 : read_blocks_loop [] (List.replicate 15 dbC3.write).flatten =
      .ok ((List.replicate 15 dbC3.write).map Block.mk) := by
    have := read_blocks_loop_concat (List.replicate 15 dbC3.write) [] []
      (fun x hx => by rw [List.eq_of_mem_replicate hx]; exact hwl)
      (by simp) (by
        intro hnil
        have := congrArg List.length hnil
        simp at this)
    rw [List.append_nil] at this
    simpa using this
  have hload_err : DataBlock.load_data_block (Block.mk dbC3.write) =
      .error .Deku := by
    apply load_data_block_display0 hwl
    rfl
  have hstep : ∀ (b : Block) (rest : List Block),
      DataBlock.load_data_block b = .error .Deku →
      DataBlock.load_all_data_blocks (b :: rest) = .error .Deku := by
    intro b rest h
    unfold DataBlock.load_all_data_blocks
    rw [h]
  have s5 : DataBlock.load_all_data_blocks
      ((List.replicate 15 dbC3.write).map Block.mk) = .error .Deku := by
    rw [List.map_replicate,
      show List.replicate 15 (Block.mk dbC3.write) =
        Block.mk dbC3.write :: List.replicate 14 (Block.mk dbC3.write)
        from rfl]
    exact hstep _ _ hload_err
  have hfinal : ∀ (inp : List Nat) (i : InfoBlock) (bs : List Block),
      BLOCK ≤ inp.length →
      InfoBlock.open_block (Block.mk (inp.take BLOCK)) = .ok i →
      read_blocks_loop [] (inp.drop BLOCK) = .ok bs →
      DataBlock.load_all_data_blocks bs = .error .Deku →
      MemCard.open_bytes inp = .error .Deku := by
    intro inp i bs hlen h1 h2 h3
    unfold MemCard.open_bytes
    rw [if_pos hlen]
    simp only [h1, h2, h3]
  exact hfinal _ mcC3.info ((List.replicate 15 dbC3.write).map Block.mk)
    htot (by rw [hs1]; exact s3) (by rw [hs2, hmapw]; exact s4) s5

/-- C3 witness: the amended round trip theorem applied to the concrete
well formed, checksum consistent card `mc0`. -/
theorem C3_witness :
    mc0.WF ∧ MemCard.consistent mc0 ∧
    mc0.write_bytes.bind MemCard.open_bytes = .ok mc0 := by
  have hWF : mc0.WF := by decide
  have hc : MemCard.consistent mc0 := by decide
  exact ⟨hWF, hc, C3_roundtrip mc0 hWF hc⟩

/-- C5: the record loaders validate every 128 byte record: a load over a
prefix of valid records followed by a record with a bad checksum aborts
with `BadChecksum` (no partial result is returned, the result being a
single `Except` value), a load over exactly `n` valid records succeeds
with all of them, and an InfoBlock parse over an 8192 byte block fails
with `BadChecksum` whenever any single one of its 64 records has a
checksum mismatch. -/
theorem C5_load_all_or_nothing :
    (∀ (goods : List (List Nat)) (rest : List Nat) (n : Nat),
      (∀ r ∈ goods, r.length = FRAME ∧ validate_checksum r = .ok ()) →
      goods.length < n →
      validate_checksum rest = .error .BadChecksum →
      Frame.load (goods.flatten ++ rest) n = .error .BadChecksum) ∧
    (∀ (recs : List (List Nat)) (suffix : List Nat) (n : Nat),
      (∀ r ∈ recs, r.length = FRAME ∧ validate_checksum r = .ok ()) →
      recs.length = n → recs ≠ [] →
      Frame.load (recs.flatten ++ suffix) n = .ok (recs.map Frame.decode)) ∧
    (∀ b : Block, b.data.length = BLOCK →
      (∃ j, j < 64 ∧
        validate_checksum (b.data.drop (FRAME * j)) = .error .BadChecksum) →
      InfoBlock.open_block b = .error .BadChecksum) := by
  refine ⟨?_, ?_, ?_⟩
  · intro goods rest n h hlt hbad
    exact load_records_bad Frame.decode goods rest n h hlt hbad
  · intro recs suffix n h hn hne
    exact load_records_concat Frame.decode recs suffix n h hn hne
  · intro b hlen hex
    obtain ⟨j, hj, hbad⟩ := hex
    induction j using Nat.strong_induction_on with
    | _ j ihj =>
      by_cases hall : ∀ k, k < j →
          validate_checksum (b.data.drop (FRAME * k)) = .ok ()
      · exact InfoBlock.open_bad hlen hj hbad hall
      · push_neg at hall
        obtain ⟨k, hk, hknot⟩ := hall
        have hkle : FRAME ≤ (b.data.drop (FRAME * k)).length := by
          have hmul : FRAME * k ≤ FRAME * 63 :=
            Nat.mul_le_mul (le_refl _) (by omega)
          simp only [List.length_drop, hlen]
          norm_num [FRAME, BLOCK] at hmul ⊢
          omega
        rcases validate_cases hkle with hok | herr
        · exact absurd hok hknot
        · exact ihj k hk (by omega) herr

/-- Block whose very first record has a checksum mismatch. -/
def blockC5 : Block := Block.mk (1 :: List.replicate 8191 0)

/-- C5 witness: the theorem applied to an aborted load (first record bad),
a successful load (one valid record), and the concrete block `blockC5`
whose record 0 mismatches, on which the whole InfoBlock parse fails. -/
theorem C5_witness :
    Frame.load (List.flatten [] ++ (1 :: List.replicate 127 0)) 1 =
      .error .BadChecksum ∧
    Frame.load (List.flatten [List.replicate 128 0] ++ []) 1 =
      .ok ([List.replicate 128 0].map Frame.decode) ∧
    InfoBlock.open_block blockC5 = .error .BadChecksum := by
  have hbad5 : validate_checksum blockC5.data = .error .BadChecksum := by
    show validate_checksum (1 :: List.replicate 8191 0) = _
    have hget : ((1 : Nat) :: List.replicate 8191 0).get? (FRAME - 1) =
        some 0 := by
      rw [show FRAME - 1 = 127 from rfl, List.get?_eq_getElem?,
        show (127 : Nat) = 126 + 1 from by norm_num,
        List.getElem?_cons_succ, List.getElem?_replicate]
      norm_num
    have hcalc : calc_checksum (1 :: List.replicate 8191 0) = 1 := by
      unfold calc_checksum
      rw [show FRAME - 1 = 127 from rfl,
        show (127 : Nat) = 126 + 1 from by norm_num, List.take_succ_cons,
        List.take_replicate, List.foldl_cons]
      norm_num [foldl_xor_replicate_zero]
    unfold validate_checksum
    rw [hget]
    simp only [hcalc]
    rw [if_pos (by norm_num)]
  refine ⟨?_, ?_, ?_⟩
  · exact C5_load_all_or_nothing.1 [] _ 1 (by simp) (by simp) (by decide)
  · exact C5_load_all_or_nothing.2.1 [List.replicate 128 0] [] 1
      (by decide) rfl (by simp)
  · refine C5_load_all_or_nothing.2.2 blockC5 ?_ ⟨0, by omega, ?_⟩
    · simp only [blockC5, List.length_cons, List.length_replicate, BLOCK]
    · rw [Nat.mul_zero, List.drop_zero]
      exact hbad5

/-- C6: the title decoder consumes byte pairs from offset 0 advancing
exactly 2 bytes per step and stopping at the end of the title field if no
terminator occurs: a `0x00` lead byte terminates with the string built so
far; pair `(0x81, 0x40)` emits a space; lead `0x82` with trail in
`[0x4f, 0x58]` or `[0x60, 0x79]` emits the character `trail - 0x1f`; lead
`0x82` with trail in `[0x81, 0x9a]` emits the character `trail - 0x20`;
any other lead emits nothing but still advances. In particular the title
field starting `[0x82, 0x60, 0x82, 0x61, 0x00]` decodes to the string AB
and a title field starting `0x00` decodes to the empty string. -/
theorem C6_decoder_steps :
    (∀ (title : List Nat) (p : Nat) (s : String),
      title.get? p = some 0x00 → decode_loop title p s = some s) ∧
    (∀ (title : List Nat) (p : Nat) (s : String),
      title.get? p = some 0x81 → title.get? (p + 1) = some 0x40 →
      decode_loop title p s =
        if p + 2 ≥ title.length then some (s.push ' ')
        else decode_loop title (p + 2) (s.push ' ')) ∧
    (∀ (title : List Nat) (p trail : Nat) (s : String),
      title.get? p = some 0x82 → title.get? (p + 1) = some trail →
      (0x4f ≤ trail ∧ trail ≤ 0x58) ∨ (0x60 ≤ trail ∧ trail ≤ 0x79) →
      decode_loop title p s =
        if p + 2 ≥ title.length then
          some (s.push (Char.ofNat (trail - 0x1f)))
        else decode_loop title (p + 2) (s.push (Char.ofNat (trail - 0x1f)))) ∧
    (∀ (title : List Nat) (p trail : Nat) (s : String),
      title.get? p = some 0x82 → title.get? (p + 1) = some trail →
      0x81 ≤ trail ∧ trail ≤ 0x9a →
      decode_loop title p s =
        if p + 2 ≥ title.length then
          some (s.push (Char.ofNat (trail - 0x20)))
        else decode_loop title (p + 2) (s.push (Char.ofNat (trail - 0x20)))) ∧
    (∀ (title : List Nat) (p lead : Nat) (s : String),
      title.get? p = some lead → lead ≠ 0x00 → lead ≠ 0x81 → lead ≠ 0x82 →
      decode_loop title p s =
        if p + 2 ≥ title.length then some s
        else decode_loop title (p + 2) s) ∧
    title_frameAB.decode_title = some "AB" ∧
    title_frame00.decode_title = some "" := by
  refine ⟨fun title p s h => decode_loop_stop h,
    fun title p s h h40 =>
      decode_loop_emit h (by norm_num) (decode_emit_space h40),
    fun title p trail s h htr hr =>
      decode_loop_emit h (by norm_num) (decode_emit_digit_upper htr hr),
    fun title p trail s h htr hr =>
      decode_loop_emit h (by norm_num) (decode_emit_lower htr hr),
    fun title p lead s h h0 h1 h2 =>
      decode_loop_emit h h0 (decode_emit_other h1 h2),
    ?_, ?_⟩
  · show decode_loop title_frameAB.title 0 "" = some "AB"
    rw [decode_loop_emit
        (show title_frameAB.title.get? 0 = some 0x82 by decide)
        (by norm_num)
        (decode_emit_digit_upper
          (show title_frameAB.title.get? 1 = some 0x60 by decide)
          (by norm_num)),
      if_neg (by decide)]
    rw [decode_loop_emit
        (show title_frameAB.title.get? 2 = some 0x82 by decide)
        (by norm_num)
        (decode_emit_digit_upper
          (show title_frameAB.title.get? 3 = some 0x61 by decide)
          (by norm_num)),
      if_neg (by decide)]
    rw [decode_loop_stop
      (show title_frameAB.title.get? 4 = some 0x00 by decide)]
    decide
  · show decode_loop title_frame00.title 0 "" = some ""
    rw [decode_loop_stop
      (show title_frame00.title.get? 0 = some 0x00 by decide)]

/-- C6 witness: the step equations applied to the concrete title fields
`[0x00, 0x00]` (immediate terminator) and `[0x81, 0x40]` (one space then
end of input). -/
theorem C6_witness :
    decode_loop [0x00, 0x00] 0 "" = some "" ∧
    decode_loop [0x81, 0x40] 0 "" = some ("".push ' ') := by
  refine ⟨C6_decoder_steps.1 [0x00, 0x00] 0 "" (by decide), ?_⟩
  rw [C6_decoder_steps.2.1 [0x81, 0x40] 0 "" (by decide) (by decide),
    if_pos (by decide)]

/-- C7: for every icon frame and every 16 entry palette, the icon
translation succeeds and returns exactly 1024 bytes when the frame has 128
bytes; each input byte yields two pixels, low nibble first and high nibble
second; each pixel contributes the four bytes
`((p &&& 0x1f) * 8, ((p >>> 5) &&& 0x1f) * 8, ((p >>> 10) &&& 0x1f) * 8,
255)` for the selected palette entry `p`; and bit 15 of the palette entry
is ignored (reducing the entry modulo `0x8000` yields the same bytes). -/
theorem C7_translate (db : DataBlock) (f : Frame)
    (hpal : db.title_frame.icon_palette.length = 16)
    (hf : f.data.length = FRAME) :
    ∃ out, db.translate_bmp_to_rgba f = some out ∧
      out.length = 1024 ∧
      out = f.data.flatMap (fun v =>
        push_pixel (db.title_frame.icon_palette.getD (v % 16) 0) ++
          push_pixel (db.title_frame.icon_palette.getD (v / 16 % 16) 0)) ∧
      (∀ p, push_pixel p =
        [(p &&& 0x1f) * 8, ((p >>> 5) &&& 0x1f) * 8,
          ((p >>> 10) &&& 0x1f) * 8, 255]) ∧
      (∀ p, push_pixel p = push_pixel (p % 0x8000)) := by
  have heq := translate_loop_eq db.title_frame.icon_palette f.data hpal
  refine ⟨_, heq, ?_, rfl, ?_, ?_⟩
  · have hlen8 : (f.data.flatMap (fun v =>
        push_pixel (db.title_frame.icon_palette.getD (v % 16) 0) ++
          push_pixel (db.title_frame.icon_palette.getD (v / 16 % 16) 0))).length
        = f.data.length * 8 :=
      flatMap_length_const (fun a _ => rfl)
    rw [hlen8, hf]
    decide
  · intro p
    have h5 : (p >>> 5) &&& 0x1f = p / 32 % 32 := by
      rw [Nat.shiftRight_eq_div_pow, show (2 ^ 5 : Nat) = 32 by norm_num,
        and_31_eq_mod]
    have h10 : (p >>> 10) &&& 0x1f = p / 1024 % 32 := by
      rw [Nat.shiftRight_eq_div_pow, show (2 ^ 10 : Nat) = 1024 by norm_num,
        and_31_eq_mod]
    rw [push_pixel_eq, h5, h10, and_31_eq_mod]
    rfl
  · intro p
    rw [push_pixel_eq, push_pixel_eq]
    unfold pixel_rgba
    have h1 : p % 0x8000 % 32 = p % 32 := by omega
    have h2 : p % 0x8000 / 32 % 32 = p / 32 % 32 := by omega
    have h3 : p % 0x8000 / 1024 % 32 = p / 1024 % 32 := by omega
    rw [h1, h2, h3]

/-- C7 witness: the translation theorem applied to the concrete data block
`db0` (16 entry zero palette) and the concrete 128 byte frame `frame0`. -/
theorem C7_witness :
    db0.title_frame.icon_palette.length = 16 ∧
    frame0.data.length = FRAME ∧
    ∃ out, db0.translate_bmp_to_rgba frame0 = some out ∧
      out.length = 1024 ∧
      out = frame0.data.flatMap (fun v =>
        push_pixel (db0.title_frame.icon_palette.getD (v % 16) 0) ++
          push_pixel (db0.title_frame.icon_palette.getD (v / 16 % 16) 0)) ∧
      (∀ p, push_pixel p =
        [(p &&& 0x1f) * 8, ((p >>> 5) &&& 0x1f) * 8,
          ((p >>> 10) &&& 0x1f) * 8, 255]) ∧
      (∀ p, push_pixel p = push_pixel (p % 0x8000)) :=
  ⟨by decide, by decide, C7_translate db0 frame0 (by decide) (by decide)⟩

/-- C10: for every title frame with a 64 byte title field, the title
decoder returns successfully (the panics modelled by `none` are
unreachable) and every character of the returned string is an ASCII space,
a digit, an uppercase letter or a lowercase letter, with at most 32
characters emitted. -/
theorem C10_decode_total (tf : TitleFrame) (hlen : tf.title.length = 64) :
    ∃ s : String, tf.decode_title = some s ∧
      (∀ c ∈ s.data, ascii_ok c) ∧ s.data.length ≤ 32 := by
  obtain ⟨t, ht, hok, hlen2⟩ := decode_loop_good 64 tf.title 0 "" hlen
    (by norm_num) (by norm_num) (by norm_num)
    (by
      intro c hc
      rw [show ("" : String).data = [] from rfl] at hc
      exact absurd hc (List.not_mem_nil c))
  refine ⟨t, ht, hok, ?_⟩
  rw [show ("" : String).data = [] from rfl] at hlen2
  simpa using hlen2

/-- C10 witness: the decoder totality theorem applied to the concrete
title frame `title_frame0` with its 64 byte zero title field. -/
theorem C10_witness :
    title_frame0.title.length = 64 ∧
    ∃ s : String, title_frame0.decode_title = some s ∧
      (∀ c ∈ s.data, ascii_ok c) ∧ s.data.length ≤ 32 :=
  ⟨by decide, C10_decode_total title_frame0 (by decide)⟩

end PSXMem
